import Mathlib

/-!
Verification of the natural-language specification of
`realestate_data_app` (file `scraper/zillow_scrape_functions.py`)
against a shallow embedding of that file in Lean 4.

The embedding models:
  - Python/JSON values as the inductive type `Json` (numbers are modelled
    as integers; the claims under verification never involve fractional
    numbers);
  - `json.loads` / `json.dumps` as the executable functions `jsonLoads` /
    `jsonDumps` (the textual form of `jsonDumps` differs from CPython's
    `json.dumps` only in which characters are backslash-escaped — CPython
    additionally escapes control and non-ASCII characters — which does not
    affect the value obtained after re-parsing);
  - the Python exceptions the scraper can raise as the type `PyError`,
    one constructor per distinct failure mode of the source;
  - the HTTP client, the `parsel` HTML selector and randomness as explicit
    oracle parameters (they are external collaborators per the spec);
  - the regular-expression scan
    `re.findall(r'"queryState":(\x7b.+}),\s*"filter', text)[0]`
    as the executable function `findQueryState`, including the leftmost
    scan, the greedy backtracking of `.+` (which does not match a newline)
    and the `\s*` run.
-/

/-- Model of a Python value that can appear in a JSON document.  Objects
are association lists in insertion order (Python 3 dicts preserve insertion
order; `json.loads` keeps the first position and the last value of a
duplicated key, see `insertKey`). -/
inductive Json where
  | null
  | bool (b : Bool)
  | num (n : Int)
  | str (s : String)
  | arr (xs : List Json)
  | obj (fields : List (String × Json))
deriving Repr

mutual

/-- Decidable equality on `Json`, written out by hand (the automatic
deriving does not handle the nested inductive). -/
def decEqJson : (a b : Json) → Decidable (a = b)
  | .null, .null => isTrue rfl
  | .null, .bool _ => isFalse (by intro h; exact Json.noConfusion h)
  | .null, .num _ => isFalse (by intro h; exact Json.noConfusion h)
  | .null, .str _ => isFalse (by intro h; exact Json.noConfusion h)
  | .null, .arr _ => isFalse (by intro h; exact Json.noConfusion h)
  | .null, .obj _ => isFalse (by intro h; exact Json.noConfusion h)
  | .bool _, .null => isFalse (by intro h; exact Json.noConfusion h)
  | .bool a, .bool b =>
      if h : a = b then isTrue (by rw [h])
      else isFalse (by intro c; injection c; contradiction)
  | .bool _, .num _ => isFalse (by intro h; exact Json.noConfusion h)
  | .bool _, .str _ => isFalse (by intro h; exact Json.noConfusion h)
  | .bool _, .arr _ => isFalse (by intro h; exact Json.noConfusion h)
  | .bool _, .obj _ => isFalse (by intro h; exact Json.noConfusion h)
  | .num _, .null => isFalse (by intro h; exact Json.noConfusion h)
  | .num _, .bool _ => isFalse (by intro h; exact Json.noConfusion h)
  | .num a, .num b =>
      if h : a = b then isTrue (by rw [h])
      else isFalse (by intro c; injection c; contradiction)
  | .num _, .str _ => isFalse (by intro h; exact Json.noConfusion h)
  | .num _, .arr _ => isFalse (by intro h; exact Json.noConfusion h)
  | .num _, .obj _ => isFalse (by intro h; exact Json.noConfusion h)
  | .str _, .null => isFalse (by intro h; exact Json.noConfusion h)
  | .str _, .bool _ => isFalse (by intro h; exact Json.noConfusion h)
  | .str _, .num _ => isFalse (by intro h; exact Json.noConfusion h)
  | .str a, .str b =>
      if h : a = b then isTrue (by rw [h])
      else isFalse (by intro c; injection c; contradiction)
  | .str _, .arr _ => isFalse (by intro h; exact Json.noConfusion h)
  | .str _, .obj _ => isFalse (by intro h; exact Json.noConfusion h)
  | .arr _, .null => isFalse (by intro h; exact Json.noConfusion h)
  | .arr _, .bool _ => isFalse (by intro h; exact Json.noConfusion h)
  | .arr _, .num _ => isFalse (by intro h; exact Json.noConfusion h)
  | .arr _, .str _ => isFalse (by intro h; exact Json.noConfusion h)
  | .arr xs, .arr ys =>
      match decEqJsonList xs ys with
      | isTrue h => isTrue (by rw [h])
      | isFalse h => isFalse (by intro c; injection c; contradiction)
  | .arr _, .obj _ => isFalse (by intro h; exact Json.noConfusion h)
  | .obj _, .null => isFalse (by intro h; exact Json.noConfusion h)
  | .obj _, .bool _ => isFalse (by intro h; exact Json.noConfusion h)
  | .obj _, .num _ => isFalse (by intro h; exact Json.noConfusion h)
  | .obj _, .str _ => isFalse (by intro h; exact Json.noConfusion h)
  | .obj _, .arr _ => isFalse (by intro h; exact Json.noConfusion h)
  | .obj fs, .obj gs =>
      match decEqJsonFields fs gs with
      | isTrue h => isTrue (by rw [h])
      | isFalse h => isFalse (by intro c; injection c; contradiction)

def decEqJsonList : (xs ys : List Json) → Decidable (xs = ys)
  | [], [] => isTrue rfl
  | [], _ :: _ => isFalse (by intro h; exact List.noConfusion h)
  | _ :: _, [] => isFalse (by intro h; exact List.noConfusion h)
  | x :: xs, y :: ys =>
      match decEqJson x y, decEqJsonList xs ys with
      | isTrue h1, isTrue h2 => isTrue (by rw [h1, h2])
      | isFalse h1, _ => isFalse (by intro c; injection c; contradiction)
      | isTrue _, isFalse h2 => isFalse (by intro c; injection c; contradiction)

def decEqJsonFields : (xs ys : List (String × Json)) → Decidable (xs = ys)
  | [], [] => isTrue rfl
  | [], _ :: _ => isFalse (by intro h; exact List.noConfusion h)
  | _ :: _, [] => isFalse (by intro h; exact List.noConfusion h)
  | (k, v) :: xs, (k2, v2) :: ys =>
      if hk : k = k2 then
        match decEqJson v v2, decEqJsonFields xs ys with
        | isTrue h1, isTrue h2 => isTrue (by rw [hk, h1, h2])
        | isFalse h1, _ =>
            isFalse (by intro c; injection c with c1 c2; apply h1; rw [show v = (k, v).2 from rfl, c1])
        | isTrue _, isFalse h2 => isFalse (by intro c; injection c; contradiction)
      else isFalse (by intro c; injection c with c1 c2; apply hk; rw [show k = (k, v).1 from rfl, c1])

end

instance : DecidableEq Json := decEqJson

instance {ε α : Type} [DecidableEq ε] [DecidableEq α] : DecidableEq (Except ε α)
  | .error e, .error e2 =>
      if h : e = e2 then isTrue (by rw [h])
      else isFalse (by intro c; injection c; contradiction)
  | .error _, .ok _ => isFalse (by intro c; exact Except.noConfusion c)
  | .ok _, .error _ => isFalse (by intro c; exact Except.noConfusion c)
  | .ok a, .ok a2 =>
      if h : a = a2 then isTrue (by rw [h])
      else isFalse (by intro c; injection c; contradiction)

/-- Exceptions the Python source can raise, one constructor per distinct
failure mode.  The spec's §7 error taxonomy maps onto these as follows:
`ExtractionError` (expected marker/pattern not found) is realised by
`indexError` (the `[0]` on an empty `re.findall` result) and by
`loadsTypeError` (the `json.loads(None)` reached when neither page marker
is present); `MalformedDataError` is realised by `jsonDecodeError` and
`keyError`. -/
inductive PyError where
  /-- IndexError: list index out of range (`re.findall(...)[0]` on no match). -/
  | indexError
  /-- TypeError raised by `json.loads` on a non-string argument
  (None when a page marker is absent, or an already-structured list). -/
  | loadsTypeError
  /-- json.JSONDecodeError (a ValueError): malformed JSON text. -/
  | jsonDecodeError
  /-- KeyError: subscripting a dict with a missing key. -/
  | keyError (k : String)
  /-- TypeError from another unsupported operation (string-subscripting a
  list, comparing a non-number with `>`, extending by a non-iterable, or
  item-assignment on a non-dict). -/
  | typeError
  /-- AttributeError: calling `.items()` on a value that is not a dict. -/
  | attributeError
  /-- StopIteration: `next()` on an exhausted generator. -/
  | stopIteration
deriving Repr, DecidableEq

/-- Turn an optional value into an `Except`, with the given error on `none`. -/
def toExcept (e : PyError) : Option α → Except PyError α
  | some a => .ok a
  | none => .error e

/-- Lookup of a key in an association-list object (first occurrence;
Python dicts never hold a duplicated key). -/
def lookupKey : List (String × Json) → String → Option Json
  | [], _ => none
  | (k, v) :: fs, key => if k = key then some v else lookupKey fs key

/-- Assignment `d[k] = v` on a Python dict: an existing key keeps its
position and gets the new value, a new key is appended at the end. -/
def insertKey : List (String × Json) → String → Json → List (String × Json)
  | [], key, v => [(key, v)]
  | (k, w) :: fs, key, v =>
      if k = key then (k, v) :: fs else (k, w) :: insertKey fs key v

/-- Python subscripting `x[key]` with a string key: a dict looks the key up
(KeyError when absent); every other value raises TypeError. -/
def pySub : Json → String → Except PyError Json
  | .obj fs, key => toExcept (.keyError key) (lookupKey fs key)
  | _, _ => .error .typeError

/-- Python iteration over a value (`for x in v`, `list.extend(v)`): a list
yields its elements, a string its characters (as 1-character strings), a
dict its keys; other values raise TypeError. -/
def pyIter : Json → Except PyError (List Json)
  | .arr xs => .ok xs
  | .str s => .ok (s.data.map fun c => Json.str (String.mk [c]))
  | .obj fs => .ok (fs.map fun f => Json.str f.1)
  | _ => .error .typeError

/-- Python truthiness of a value (`if v:`). -/
def pyTruthy : Json → Bool
  | .null => false
  | .bool b => b
  | .num n => n ≠ 0
  | .str s => ¬ s.isEmpty
  | .arr xs => ¬ xs.isEmpty
  | .obj fs => ¬ fs.isEmpty

/-- Truthiness of an optional argument whose Python default is `None`. -/
def pyTruthyOpt : Option Json → Bool
  | none => false
  | some v => pyTruthy v

/-- Item-assignment `d[key] = v` (`query_data["filterState"] = filters`):
TypeError on a non-dict. -/
def pyAssign (d : Json) (key : String) (v : Json) : Except PyError Json :=
  match d with
  | .obj fs => .ok (.obj (insertKey fs key v))
  | _ => .error .typeError

/-- Evaluating `total > 500` in Python: valid for a number or a bool
(bools are ints in Python), a TypeError otherwise.  The result only feeds
a log line, so only the possibility of the TypeError is modelled. -/
def cmp500 : Json → Except PyError Unit
  | .num _ => .ok ()
  | .bool _ => .ok ()
  | _ => .error .typeError

/-! ### The textual JSON layer: `json.loads` and `json.dumps` -/

/-- JSON whitespace accepted between tokens. -/
def isJsonWs (c : Char) : Bool := c = ' ' || c = '\t' || c = '\n' || c = '\r'

/-- Drop leading JSON whitespace. -/
def skipWs (s : List Char) : List Char := s.dropWhile isJsonWs

/-- Decode one backslash escape inside a JSON string literal.  `\u` escapes
are not modelled (the embedding's `jsonDumps` never emits them and no
claim depends on them). -/
def unescape (e : Char) : Option Char :=
  if e = '"' then some '"'
  else if e = '\\' then some '\\'
  else if e = '/' then some '/'
  else if e = 'n' then some '\n'
  else if e = 't' then some '\t'
  else if e = 'r' then some '\r'
  else if e = 'b' then some (Char.ofNat 8)
  else if e = 'f' then some (Char.ofNat 12)
  else none

/-- Parse the body of a JSON string literal (the opening quote already
consumed), returning the decoded characters and the input after the
closing quote. -/
def parseStrChars : List Char → Option (List Char × List Char)
  | [] => none
  | ['\\'] => none
  | '\\' :: e :: t2 =>
      match unescape e with
      | some d => (parseStrChars t2).map (fun p => (d :: p.1, p.2))
      | none => none
  | c :: t =>
      if c = '"' then some ([], t)
      else (parseStrChars t).map (fun p => (c :: p.1, p.2))

/-- Accumulate a run of decimal digits into a number, returning the rest. -/
def parseDigitsAux (acc : Nat) : List Char → Nat × List Char
  | [] => (acc, [])
  | c :: t =>
      if c.isDigit then parseDigitsAux (acc * 10 + (c.toNat - 48)) t
      else (acc, c :: t)

/-- Parse a non-empty run of decimal digits. -/
def parseDigits : List Char → Option (Nat × List Char)
  | [] => none
  | c :: t =>
      if c.isDigit then some (parseDigitsAux (c.toNat - 48) t) else none

/-- The dict built by `json.loads` from a list of parsed key/value pairs:
successive assignment, so a duplicated key keeps its first position and
last value. -/
def dedupFields (fs : List (String × Json)) : List (String × Json) :=
  fs.foldl (fun acc kv => insertKey acc kv.1 kv.2) []

/-- Parse the items of a non-empty JSON array (opening bracket already
consumed), given the value sub-parser `p`.  The fuel bounds the number of
items. -/
def parseItemsAux (p : List Char → Option (Json × List Char)) :
    Nat → List Char → Option (List Json × List Char)
  | 0, _ => none
  | fuel + 1, s =>
      match p s with
      | none => none
      | some (v, r1) =>
          match skipWs r1 with
          | ',' :: r2 => (parseItemsAux p fuel r2).map (fun q => (v :: q.1, q.2))
          | ']' :: r2 => some ([v], r2)
          | _ => none

/-- Parse the fields of a non-empty JSON object (opening brace already
consumed), given the value sub-parser `p`. -/
def parseFieldsAux (p : List Char → Option (Json × List Char)) :
    Nat → List Char → Option (List (String × Json) × List Char)
  | 0, _ => none
  | fuel + 1, s =>
      match skipWs s with
      | '"' :: t =>
          match parseStrChars t with
          | none => none
          | some (kcs, r1) =>
              match skipWs r1 with
              | ':' :: r2 =>
                  match p r2 with
                  | none => none
                  | some (v, r3) =>
                      match skipWs r3 with
                      | ',' :: r4 =>
                          (parseFieldsAux p fuel r4).map
                            (fun q => ((String.mk kcs, v) :: q.1, q.2))
                      | '\x7d' :: r4 => some ([(String.mk kcs, v)], r4)
                      | _ => none
              | _ => none
      | _ => none

/-- Fuel-indexed JSON value parser.  The fuel bounds nesting depth (and,
through the two auxiliary loops, the number of items at each level);
`jsonLoads` supplies fuel larger than the input length, which always
suffices. -/
def parseJson : Nat → List Char → Option (Json × List Char)
  | 0, _ => none
  | fuel + 1, s =>
      match skipWs s with
      | [] => none
      | c :: t =>
          if c = '\x7b' then
            match skipWs t with
            | '\x7d' :: r => some (.obj [], r)
            | _ =>
                (parseFieldsAux (parseJson fuel) (fuel + 1) t).map
                  (fun q => (.obj (dedupFields q.1), q.2))
          else if c = '[' then
            match skipWs t with
            | ']' :: r => some (.arr [], r)
            | _ =>
                (parseItemsAux (parseJson fuel) (fuel + 1) t).map
                  (fun q => (.arr q.1, q.2))
          else if c = '"' then (parseStrChars t).map (fun p => (.str (String.mk p.1), p.2))
          else if c = 't' then
            (if "rue".data.isPrefixOf t then some (.bool true, t.drop 3) else none)
          else if c = 'f' then
            (if "alse".data.isPrefixOf t then some (.bool false, t.drop 4) else none)
          else if c = 'n' then
            (if "ull".data.isPrefixOf t then some (.null, t.drop 3) else none)
          else if c = '-' then (parseDigits t).map (fun p => (.num (-(p.1 : Int)), p.2))
          else if c.isDigit then
            (parseDigits (c :: t)).map (fun p => (.num (p.1 : Int), p.2))
          else none

/-- Model of `json.loads` on a string: parse one JSON value and require
that only whitespace remains (CPython raises "Extra data" otherwise).
Returns `none` for json.JSONDecodeError. -/
def jsonLoads (s : String) : Option Json :=
  match parseJson (s.length + 1) s.data with
  | some (v, rest) => if skipWs rest = [] then some v else none
  | none => none

/-- Model of `json.loads` applied to an arbitrary Python value: CPython
accepts only strings (TypeError otherwise).  `find_properties` applies
this to an already-structured list — the defect §9 of the spec flags. -/
def pyLoads (v : Json) : Except PyError Json :=
  match v with
  | .str s => toExcept .jsonDecodeError (jsonLoads s)
  | _ => .error .loadsTypeError

/-- Escape one character for a JSON string literal.  CPython additionally
escapes other control and (by default) non-ASCII characters; the escapes
chosen here decode to the same characters, so the re-parsed value is the
same. -/
def escChar (c : Char) : List Char :=
  if c = '"' then ['\\', '"']
  else if c = '\\' then ['\\', '\\']
  else if c = '\n' then ['\\', 'n']
  else if c = '\t' then ['\\', 't']
  else if c = '\r' then ['\\', 'r']
  else [c]

/-- Escape every character of a string body in order. -/
def escList : List Char → List Char
  | [] => []
  | c :: cs => escChar c ++ escList cs

/-- Serialize a string to a JSON string literal. -/
def dumpStr (s : String) : List Char := '"' :: (escList s.data ++ ['"'])

/-- Decimal digits of a natural number, most significant first; the fuel
(any bound above the number of digits) makes the recursion structural. -/
def dumpNatAux : Nat → Nat → List Char
  | 0, _ => []
  | fuel + 1, n =>
      if n < 10 then [Char.ofNat (48 + n)]
      else dumpNatAux fuel (n / 10) ++ [Char.ofNat (48 + n % 10)]

/-- Decimal representation of a natural number. -/
def dumpNat (n : Nat) : List Char := dumpNatAux (n + 1) n

/-- Decimal representation of an integer, as `json.dumps` prints it. -/
def dumpInt (n : Int) : List Char :=
  if n < 0 then '-' :: dumpNat (-n).toNat else dumpNat n.toNat

mutual

/-- Serialization of a value, with CPython's default separators
(", " between items, ": " after a key). -/
def dumpsChars : Json → List Char
  | .null => "null".data
  | .bool true => "true".data
  | .bool false => "false".data
  | .num n => dumpInt n
  | .str s => dumpStr s
  | .arr [] => "[]".data
  | .arr (x :: xs) => '[' :: (dumpsChars x ++ dumpItemsChars xs) ++ [']']
  | .obj [] => "\x7b\x7d".data
  | .obj (f :: fs) =>
      '\x7b' :: ((dumpStr f.1 ++ ':' :: ' ' :: dumpsChars f.2) ++ dumpFieldsChars fs) ++ ['\x7d']

def dumpItemsChars : List Json → List Char
  | [] => []
  | x :: xs => (',' :: ' ' :: dumpsChars x) ++ dumpItemsChars xs

def dumpFieldsChars : List (String × Json) → List Char
  | [] => []
  | f :: fs =>
      (',' :: ' ' :: (dumpStr f.1 ++ ':' :: ' ' :: dumpsChars f.2)) ++ dumpFieldsChars fs

end

/-- Model of `json.dumps` (it cannot fail on `Json` values: every value of
the model is JSON-serializable). -/
def jsonDumps (v : Json) : String := String.mk (dumpsChars v)

/-- Check that no key occurs twice in a field list. -/
def nodupKeys : List (String × Json) → Bool
  | [] => true
  | (k, _) :: fs => !(fs.any fun g => g.1 == k) && nodupKeys fs

mutual

/-- Well-formedness of a value as a Python object: no dict carries a
duplicated key (Python dicts cannot).  Exactly the values in the image of
the Python data model ("JSON-safe data"). -/
def Json.wf : Json → Bool
  | .null => true
  | .bool _ => true
  | .num _ => true
  | .str _ => true
  | .arr xs => wfList xs
  | .obj fs => nodupKeys fs && wfFields fs

def wfList : List Json → Bool
  | [] => true
  | x :: xs => x.wf && wfList xs

def wfFields : List (String × Json) → Bool
  | [] => true
  | f :: fs => f.2.wf && wfFields fs

end

/-! ### The query-state regex

`re.findall(r'"queryState":(\x7b.+}),\s*"filter', html)[0]`: a leftmost
scan for the literal marker `"queryState":`, a brace, a greedy `.+` run
(any characters except newline, longest first), a closing brace, a comma,
optional whitespace and the literal `"filter`.  The single capture group
is the brace-delimited JSON value. -/

/-- Python `\s` whitespace class (ASCII part). -/
def isPyWs (c : Char) : Bool :=
  c = ' ' || c = '\t' || c = '\n' || c = '\r' || c = Char.ofNat 11 || c = Char.ofNat 12

/-- Match of the part of the pattern after the capture group:
`,\s*"filter`. -/
def matchTail (s : List Char) : Bool :=
  match s with
  | ',' :: t => "\"filter".data.isPrefixOf (t.dropWhile isPyWs)
  | _ => false

/-- Greedy backtracking of `.+}` followed by `,\s*"filter` starting right
after the opening brace: the largest j ≥ 1 such that the first j
characters contain no newline, the next character is a closing brace, and
the tail pattern matches after it. -/
def greedyDot (u : List Char) : Option Nat :=
  let n := (u.takeWhile fun c => c ≠ '\n').length
  (List.range n).reverse.findSome? fun k =>
    let j := k + 1
    match u.drop j with
    | '\x7d' :: t => if matchTail t then some j else none
    | _ => none

/-- The literal marker `"queryState":`. -/
def qsMarker : List Char := "\"queryState\":".data

/-- Attempt to match the whole pattern at the start of `s`, returning the
capture group. -/
def matchQsAt (s : List Char) : Option (List Char) :=
  if qsMarker.isPrefixOf s then
    match s.drop qsMarker.length with
    | '\x7b' :: u =>
        (greedyDot u).map (fun j => '\x7b' :: (u.take j ++ ['\x7d']))
    | _ => none
  else none

/-- Leftmost match: the capture group of the first position at which the
whole pattern matches (`re.findall(...)[0]`). -/
def findQueryState : List Char → Option (List Char)
  | [] => none
  | c :: rest =>
      match matchQsAt (c :: rest) with
      | some cap => some cap
      | none => findQueryState rest

/-- Python's substring operator `pat in hay` on the character lists. -/
def hasSubstr (pat : List Char) : List Char → Bool
  | [] => pat.isEmpty
  | c :: t => pat.isPrefixOf (c :: t) || hasSubstr pat t

/-- Python's substring operator `pat in hay` on strings
(`'ForSale' in k`). -/
def strContains (pat hay : String) : Bool := hasSubstr pat.data hay.data

/-! ### `SearchZillow.zillow_request` and its presets

The HTTP session is an external collaborator; the landing-page body and
the search-API responses are oracle parameters.  `randint(2, 10)` is
modelled by the oracle `rids : Nat → Nat` giving the id drawn at each loop
iteration.  `urlencode` of the request dict is transport plumbing outside
the claims; a request is modelled by the structured `full_query` dict the
source builds. -/

/-- One request to `GetSearchPageState.htm`: the `full_query` dict
(`searchQueryState`, `wants`, `requestId`) built per category. -/
structure ApiRequest where
  searchQueryState : Json
  wants : Json
  requestId : Nat
deriving Repr, DecidableEq

/-- Build the `full_query` of a category:
`wants = \x7bcategory: ["mapResults"]\x7d`. -/
def mkRequest (qd : Json) (category : String) (rid : Nat) : ApiRequest :=
  { searchQueryState := qd
    wants := .obj [(category, .arr [.str "mapResults"])]
    requestId := rid }

/-- Body of one iteration of the category loop after the GET: parse the
response, read `categoryTotals[category].totalResultCount` (compared with
500 for a log line), and collect `data[category].searchResults.mapResults`
(`found.extend`). -/
def categoryStep (api : ApiRequest → String) (req : ApiRequest) (category : String) :
    Except PyError (List Json) := do
  let data ← toExcept .jsonDecodeError (jsonLoads (api req))
  let totals ← pySub data "categoryTotals"
  let catTotals ← pySub totals category
  let total ← pySub catTotals "totalResultCount"
  let _ ← cmp500 total
  let catData ← pySub data category
  let searchResults ← pySub catData "searchResults"
  let mapResults ← pySub searchResults "mapResults"
  pyIter mapResults

/-- The category loop of `zillow_request`.  Returns the requests actually
issued (an exception abandons the loop, so requests after a failing one
are never issued) together with the aggregated `found` list or the raised
exception. -/
def zillowLoop (api : ApiRequest → String) (rids : Nat → Nat) (qd : Json) :
    Nat → List String → List ApiRequest × Except PyError (List Json)
  | _, [] => ([], .ok [])
  | i, category :: rest =>
      let req := mkRequest qd category (rids i)
      match categoryStep api req category with
      | .error e => ([req], .error e)
      | .ok results =>
          let (reqs, tail) := zillowLoop api rids qd (i + 1) rest
          (req :: reqs, tail.map (fun found => results ++ found))

/-- Model of `SearchZillow.zillow_request`: extract the query-state from
the landing-page body (`re.findall(...)[0]`, then `json.loads`), replace
its `filterState` when `filters` is truthy, then run the category loop.
Returns the issued API requests alongside the outcome. -/
def zillow_request (landingBody : String) (api : ApiRequest → String)
    (rids : Nat → Nat) (filters : Option Json) (categories : List String) :
    List ApiRequest × Except PyError (List Json) :=
  match findQueryState landingBody.data with
  | none => ([], .error .indexError)
  | some cap =>
      match jsonLoads (String.mk cap) with
      | none => ([], .error .jsonDecodeError)
      | some qd0 =>
          match (if pyTruthyOpt filters then
                   pyAssign qd0 "filterState" (filters.getD .null)
                 else .ok qd0) with
          | .error e => ([], .error e)
          | .ok qd => zillowLoop api rids qd 0 categories

/-- The fixed filter mapping of `SearchZillow.search_rent`, in source
order. -/
def rentFilters : Json := .obj
  [ ("isForSaleForeclosure", .obj [("value", .bool false)])
  , ("isMultiFamily", .obj [("value", .bool false)])
  , ("isAllHomes", .obj [("value", .bool true)])
  , ("isAuction", .obj [("value", .bool false)])
  , ("isNewConstruction", .obj [("value", .bool false)])
  , ("isForRent", .obj [("value", .bool true)])
  , ("isLotLand", .obj [("value", .bool false)])
  , ("isManufactured", .obj [("value", .bool false)])
  , ("isForSaleByOwner", .obj [("value", .bool false)])
  , ("isComingSoon", .obj [("value", .bool false)])
  , ("isForSaleByAgent", .obj [("value", .bool false)])
  ]

/-- Model of `SearchZillow.search_sale`: the base search with no filters
and the default categories `("cat1", "cat2")`. -/
def search_sale (landingBody : String) (api : ApiRequest → String)
    (rids : Nat → Nat) : List ApiRequest × Except PyError (List Json) :=
  zillow_request landingBody api rids none ["cat1", "cat2"]

/-- Model of `SearchZillow.search_rent`: the base search with the fixed
rental filter mapping, restricted to `["cat1"]`. -/
def search_rent (landingBody : String) (api : ApiRequest → String)
    (rids : Nat → Nat) : List ApiRequest × Except PyError (List Json) :=
  zillow_request landingBody api rids (some rentFilters) ["cat1"]

/-! ### `ParseProperties` -/

/-- Model of `ParseProperties.parse_property`: project the seven fixed
fields out of the `building` object, in source order (the first missing
key raises its KeyError). -/
def parse_property (data : Json) : Except PyError Json := do
  let address ← pySub data "address"
  let description ← pySub data "description"
  let galleryPhotos ← pySub data "galleryPhotos"
  let photoEntries ← pyIter galleryPhotos
  let photos ← photoEntries.mapM (fun p => pySub p "url")
  let zipcode ← pySub data "zipcode"
  let phone ← pySub data "buildingPhoneNumber"
  let name ← pySub data "buildingName"
  let floorPlans ← pySub data "floorPlans"
  return .obj
    [ ("address", address)
    , ("description", description)
    , ("photos", .arr photos)
    , ("zipcode", zipcode)
    , ("phone", phone)
    , ("name", name)
    , ("floor_plans", floorPlans)
    ]

/-- A fetched listing page, as the source observes it through `parsel`:
the text of `script#__NEXT_DATA__` and of `script#hdpApolloPreloadedData`
(`css(...).get()` returns None when the element is absent). -/
structure ListingPage where
  nextData : Option String
  apolloData : Option String

/-- The generator scan
`next(v['property'] for k, v in data.items() if 'ForSale' in k)`:
the first key containing "ForSale" yields `v['property']` (its KeyError
propagates — entries without a `property` field are NOT skipped); an
exhausted generator raises StopIteration. -/
def nextForSale : List (String × Json) → Except PyError Json
  | [] => .error .stopIteration
  | (k, v) :: rest =>
      if strContains "ForSale" k then pySub v "property" else nextForSale rest

/-- The `data.items()` call on the doubly-decoded Apollo cache: an
AttributeError unless the value is a dict. -/
def apolloItems : Json → Except PyError (List (String × Json))
  | .obj fs => .ok fs
  | _ => .error .attributeError

/-- Per-URL body of `ParseProperties.scrape_properties` (the inner
`scrape`), after the GET and `Selector` construction: prefer the
NEXT_DATA cache (descend `props.initialReduxState.gdp.building` and
project with `parse_property`), else doubly-decode the Apollo cache
(`json.loads(json.loads(text)['apiCache'])`) and scan for the first
"ForSale" key, returning that entry's `property` field as-is. -/
def scrape_property (page : ListingPage) : Except PyError Json :=
  match page.nextData with
  | some text => do
      let data ← toExcept .jsonDecodeError (jsonLoads text)
      let props ← pySub data "props"
      let redux ← pySub props "initialReduxState"
      let gdp ← pySub redux "gdp"
      let building ← pySub gdp "building"
      parse_property building
  | none => do
      let data ← pyLoads (match page.apolloData with
                          | some text => .str text
                          | none => .null)
      let cache ← pySub data "apiCache"
      let inner ← pyLoads cache
      let items ← apolloItems inner
      nextForSale items

/-- Model of `ParseProperties.scrape_properties`: fetch every URL (the
session and `parsel` are the oracle `fetch`) and gather the per-URL
results in input order; the first failure propagates
(`asyncio.gather` fail-fast). -/
def scrape_properties (fetch : String → ListingPage) (urls : List String) :
    Except PyError (List Json) :=
  urls.mapM (fun u => scrape_property (fetch u))

/-! ### Orchestration entry points -/

/-- Model of `find_listings`: run the rent search for "Honolulu, HI" and
return `json.loads(json.dumps(data))`.  The session configuration
(connection limit, timeout, headers) is transport plumbing inside the
oracles. -/
def find_listings (landingBody : String) (api : ApiRequest → String)
    (rids : Nat → Nat) : List ApiRequest × Except PyError Json :=
  ( (search_rent landingBody api rids).1
  , do
      let data ← (search_rent landingBody api rids).2
      pyLoads (.str (jsonDumps (.arr data))) )

/-- Model of `find_properties`: resolve the relative path against the
site origin, scrape that single URL, and apply `json.loads` to the
resulting list — the source's final `json.loads(data)` receives a list,
not a string (the defect §9 of the spec flags). -/
def find_properties (fetch : String → ListingPage) (url : String) :
    Except PyError Json := do
  let data ← scrape_properties fetch ["https://www.zillow.com" ++ url]
  pyLoads (.arr data)

/-! ### Additional definitions used by the claim statements and proofs -/

/-- Selection rule exactly as the spec words it (shape B of §3): the
correct entry is "the first whose key contains the substring \"ForSale\"
AND whose value has a \"property\" field"; its `property` field is
returned.  To be compared with the source's `nextForSale`, which does not
test the value. -/
def specForSaleSelect (fs : List (String × Json)) : Option Json :=
  match fs.find? (fun kv =>
      strContains "ForSale" kv.1 &&
        (match kv.2 with
         | .obj gs => (lookupKey gs "property").isSome
         | _ => false)) with
  | some kv =>
      match kv.2 with
      | .obj gs => lookupKey gs "property"
      | _ => none
  | none => none

/-- The requests the category loop issues when no iteration fails,
starting at iteration index `i`. -/
def loopRequests (qd : Json) (rids : Nat → Nat) : Nat → List String → List ApiRequest
  | _, [] => []
  | i, c :: cs => mkRequest qd c (rids i) :: loopRequests qd rids (i + 1) cs

/-- Concatenation of the per-iteration result lists `L i, …, L (i+n-1)`,
in iteration order. -/
def loopResults (L : Nat → List Json) : Nat → Nat → List Json
  | _, 0 => []
  | i, n + 1 => L i ++ loopResults L (i + 1) n

/-- Numeric value of a run of digit characters, folded left. -/
def foldDigits (acc : Nat) (ds : List Char) : Nat :=
  ds.foldl (fun a c => a * 10 + (c.toNat - 48)) acc

/-- Check that a character list does not start with a digit (the context
in which a serialized number can be re-parsed unambiguously). -/
def noDigitHead : List Char → Bool
  | [] => true
  | c :: _ => !c.isDigit

/-! ### Helper lemmas -/

theorem matchQsAt_marker {s cap : List Char} (h : matchQsAt s = some cap) :
    qsMarker.isPrefixOf s = true := by
  by_cases hp : qsMarker.isPrefixOf s = true
  · exact hp
  · simp [matchQsAt, hp] at h

theorem findQueryState_some_hasSubstr :
    ∀ s cap, findQueryState s = some cap → hasSubstr qsMarker s = true := by
  intro s
  induction s with
  | nil => intro cap h; simp [findQueryState] at h
  | cons c rest ih =>
      intro cap h
      rw [findQueryState] at h
      rcases hm : matchQsAt (c :: rest) with _ | cap2
      · rw [hm] at h
        have := ih cap h
        simp [hasSubstr, this]
      · have := matchQsAt_marker hm
        simp [hasSubstr, this]

theorem findQueryState_of_no_marker {s : List Char}
    (h : hasSubstr qsMarker s = false) : findQueryState s = none := by
  rcases hf : findQueryState s with _ | cap
  · rfl
  · rw [findQueryState_some_hasSubstr s cap hf] at h
    exact absurd h (by simp)

theorem lookupKey_insertKey (fs : List (String × Json)) (k : String) (v : Json) :
    lookupKey (insertKey fs k v) k = some v := by
  induction fs with
  | nil => simp [insertKey, lookupKey]
  | cons f fs ih =>
      obtain ⟨k1, w⟩ := f
      by_cases hk : k1 = k
      · simp [insertKey, hk, lookupKey]
      · simp [insertKey, hk, lookupKey, ih]

theorem zillowLoop_searchQueryState (api : ApiRequest → String) (rids : Nat → Nat)
    (qd : Json) :
    ∀ cats i, ∀ req ∈ (zillowLoop api rids qd i cats).1, req.searchQueryState = qd := by
  intro cats
  induction cats with
  | nil => intro i req h; simp [zillowLoop] at h
  | cons c cs ih =>
      intro i req h
      rw [zillowLoop] at h
      rcases hs : categoryStep api (mkRequest qd c (rids i)) c with e | results <;>
        rw [hs] at h <;> simp at h
      · rcases h with h; rw [h]; rfl
      · rcases h with h | h
        · rw [h]; rfl
        · exact ih (i + 1) req h

theorem nextForSale_of_find? :
    ∀ (fs : List (String × Json)) k v,
      fs.find? (fun kv => strContains "ForSale" kv.1) = some (k, v) →
      nextForSale fs = pySub v "property" := by
  intro fs
  induction fs with
  | nil => intro k v h; simp at h
  | cons f fs ih =>
      intro k v h
      by_cases hc : strContains "ForSale" f.1 = true
      · rw [List.find?_cons_of_pos _ (by simpa using hc)] at h
        obtain ⟨k1, v1⟩ := f
        injection h with h
        cases h
        simp at hc
        simp [nextForSale, hc]
      · rw [List.find?_cons_of_neg _ (by simpa using hc)] at h
        obtain ⟨k1, v1⟩ := f
        simp at hc
        simp [nextForSale, hc]
        exact ih k v h

theorem nextForSale_exhausted :
    ∀ fs : List (String × Json),
      (∀ kv ∈ fs, strContains "ForSale" kv.1 = false) →
      nextForSale fs = .error .stopIteration := by
  intro fs
  induction fs with
  | nil => intro _; rfl
  | cons f fs ih =>
      intro h
      have hf := h f (by simp)
      simp [nextForSale, hf]
      exact ih fun kv hkv => h kv (by simp [hkv])

/-! ### Claims -/

/-- C5: for every landing-page body that contains no `"queryState":`
marker, the Query Builder fails — with the error of the marker-absent
site (the IndexError on `re.findall(...)[0]`, the failure §7 of the spec
names `ExtractionError`) — and it fails before any search API request is
issued (the list of issued requests is empty), whatever the filters and
categories. -/
theorem C5_no_queryState_marker_fails_before_any_request
    (body : String) (api : ApiRequest → String) (rids : Nat → Nat)
    (filters : Option Json) (categories : List String)
    (h : strContains "\"queryState\":" body = false) :
    zillow_request body api rids filters categories = ([], .error .indexError) := by
  have hq : hasSubstr qsMarker body.data = false := h
  rw [zillow_request, findQueryState_of_no_marker hq]

/-- Witness for C5 at a concrete challenge-page body. -/
theorem C5_witness :
    strContains "\"queryState\":" "<html>please verify you are human</html>" = false
    ∧ zillow_request "<html>please verify you are human</html>" (fun _ => "")
        (fun _ => 2) none ["cat1", "cat2"] = ([], .error .indexError) :=
  ⟨by decide,
   C5_no_queryState_marker_fails_before_any_request _ _ _ _ _ (by decide)⟩

/-- C6: for every listing page containing neither the NEXT_DATA marker nor
the Apollo marker, per-URL extraction fails — with the TypeError of
`json.loads(None)` at the Apollo branch, the failure §7 of the spec names
`ExtractionError` (unhandled page layout). -/
theorem C6_no_marker_extraction_fails
    (page : ListingPage) (h1 : page.nextData = none) (h2 : page.apolloData = none) :
    scrape_property page = .error .loadsTypeError := by
  obtain ⟨nd, ap⟩ := page
  simp only at h1 h2
  subst h1; subst h2
  rfl

/-- Witness for C6 at the page with neither marker. -/
theorem C6_witness :
    (ListingPage.mk none none).nextData = none
    ∧ (ListingPage.mk none none).apolloData = none
    ∧ scrape_property ⟨none, none⟩ = .error .loadsTypeError :=
  ⟨rfl, rfl, C6_no_marker_extraction_fails ⟨none, none⟩ rfl rfl⟩

/-- C8: the rent preset always calls the base search restricted to the
single category "cat1" with the fixed filter mapping of exactly 11 keys:
`isAllHomes` and `isForRent` map to `\x7b"value": true\x7d` and the other
nine keys map to `\x7b"value": false\x7d`. -/
theorem C8_search_rent_fixed_filters
    (body : String) (api : ApiRequest → String) (rids : Nat → Nat) :
    search_rent body api rids = zillow_request body api rids (some rentFilters) ["cat1"]
    ∧ ∃ fs, rentFilters = .obj fs
        ∧ fs.length = 11
        ∧ lookupKey fs "isAllHomes" = some (.obj [("value", .bool true)])
        ∧ lookupKey fs "isForRent" = some (.obj [("value", .bool true)])
        ∧ ∀ k ∈ ["isForSaleForeclosure", "isMultiFamily", "isAuction",
                 "isNewConstruction", "isLotLand", "isManufactured",
                 "isForSaleByOwner", "isForSaleByAgent", "isComingSoon"],
            lookupKey fs k = some (.obj [("value", .bool false)]) := by
  refine ⟨rfl, ?_⟩
  refine ⟨_, rfl, ?_, ?_, ?_, ?_⟩ <;> decide

/-- C10: for every listing page whose Apollo `apiCache` mapping contains
no key with substring "ForSale", per-URL extraction fails with the bare
StopIteration of the exhausted generator — not with the spec's
ExtractionError (`indexError`/`loadsTypeError`) nor MalformedDataError
(`jsonDecodeError`/`keyError`). -/
theorem C10_no_forsale_key_stopiteration
    (page : ListingPage) (text : String) (outer : Json) (innerText : String)
    (fs : List (String × Json))
    (h1 : page.nextData = none) (h2 : page.apolloData = some text)
    (h3 : jsonLoads text = some outer)
    (h4 : pySub outer "apiCache" = .ok (.str innerText))
    (h5 : jsonLoads innerText = some (.obj fs))
    (h6 : ∀ kv ∈ fs, strContains "ForSale" kv.1 = false) :
    scrape_property page = .error .stopIteration := by
  obtain ⟨nd, ap⟩ := page
  simp only at h1 h2
  subst h1; subst h2
  simp only [scrape_property, pyLoads, h3, h5, toExcept, Bind.bind, Except.bind, h4,
    apolloItems]
  exact nextForSale_exhausted fs h6

/-- Witness for C10 at a concrete Apollo page without a "ForSale" key. -/
theorem C10_witness :
    jsonLoads "\x7b\"apiCache\": \"\x7b\\\"RentalQuery\\\": \x7b\\\"x\\\": 1\x7d\x7d\"\x7d"
      = some (.obj [("apiCache", .str "\x7b\"RentalQuery\": \x7b\"x\": 1\x7d\x7d")])
    ∧ scrape_property
        ⟨none, some "\x7b\"apiCache\": \"\x7b\\\"RentalQuery\\\": \x7b\\\"x\\\": 1\x7d\x7d\"\x7d"⟩
      = .error .stopIteration :=
  ⟨by decide,
   C10_no_forsale_key_stopiteration _ _
     (.obj [("apiCache", .str "\x7b\"RentalQuery\": \x7b\"x\": 1\x7d\x7d")])
     "\x7b\"RentalQuery\": \x7b\"x\": 1\x7d\x7d"
     [("RentalQuery", .obj [("x", .num 1)])]
     rfl rfl (by decide) (by decide) (by decide) (by decide)⟩

/-- C1 fails on the code: the generator expression takes `v['property']`
of the FIRST key containing "ForSale"; when that entry's value has no
`property` field the KeyError propagates — the scan does not move on to
the next candidate, contrary to the claim's "first entry whose key
contains ForSale AND whose value has a property field".  Concrete input:
an Apollo cache with entries `aForSaleX` (no property field) then
`bForSaleY` (property = 5): the claimed selection yields 5, the code
raises KeyError. -/
theorem C1_counterexample :
    specForSaleSelect
        [("aForSaleX", .obj [("z", .num 1)]), ("bForSaleY", .obj [("property", .num 5)])]
      = some (.num 5)
    ∧ jsonLoads "\x7b\"aForSaleX\": \x7b\"z\": 1\x7d, \"bForSaleY\": \x7b\"property\": 5\x7d\x7d"
      = some (.obj [("aForSaleX", .obj [("z", .num 1)]),
                    ("bForSaleY", .obj [("property", .num 5)])])
    ∧ scrape_property
        ⟨none, some "\x7b\"apiCache\": \"\x7b\\\"aForSaleX\\\": \x7b\\\"z\\\": 1\x7d, \\\"bForSaleY\\\": \x7b\\\"property\\\": 5\x7d\x7d\"\x7d"⟩
      = .error (.keyError "property")
    ∧ scrape_property
        ⟨none, some "\x7b\"apiCache\": \"\x7b\\\"aForSaleX\\\": \x7b\\\"z\\\": 1\x7d, \\\"bForSaleY\\\": \x7b\\\"property\\\": 5\x7d\x7d\"\x7d"⟩
      ≠ .ok (.num 5) := by
  refine ⟨by decide, by decide, by decide, by decide⟩

/-- C1 amended: for every listing page containing only the Apollo-cache
marker, the extractor parses the double-encoded apiCache mapping and
returns, as-is without projection, the `property` field of the FIRST
entry (in enumeration order) whose key contains the substring "ForSale" —
whether or not its value has a `property` field; when the first such
entry's value does have one, that field is the result. -/
theorem C1_amended_apollo_first_forsale_key
    (page : ListingPage) (text : String) (outer : Json) (innerText : String)
    (fs : List (String × Json)) (k : String) (v p : Json)
    (h1 : page.nextData = none) (h2 : page.apolloData = some text)
    (h3 : jsonLoads text = some outer)
    (h4 : pySub outer "apiCache" = .ok (.str innerText))
    (h5 : jsonLoads innerText = some (.obj fs))
    (h6 : fs.find? (fun kv => strContains "ForSale" kv.1) = some (k, v))
    (h7 : pySub v "property" = .ok p) :
    scrape_property page = .ok p := by
  obtain ⟨nd, ap⟩ := page
  simp only at h1 h2
  subst h1; subst h2
  simp only [scrape_property, pyLoads, h3, h5, toExcept, Bind.bind, Except.bind, h4,
    apolloItems]
  rw [nextForSale_of_find? fs k v h6]
  exact h7

/-- Witness for the amended C1 at a concrete Apollo page whose first
"ForSale" entry carries a `property` field. -/
theorem C1_amended_witness :
    jsonLoads "\x7b\"apiCache\": \"\x7b\\\"listForSaleQuery\\\": \x7b\\\"property\\\": \x7b\\\"zpid\\\": 42\x7d\x7d\x7d\"\x7d"
      = some (.obj [("apiCache",
          .str "\x7b\"listForSaleQuery\": \x7b\"property\": \x7b\"zpid\": 42\x7d\x7d\x7d")])
    ∧ scrape_property
        ⟨none, some "\x7b\"apiCache\": \"\x7b\\\"listForSaleQuery\\\": \x7b\\\"property\\\": \x7b\\\"zpid\\\": 42\x7d\x7d\x7d\"\x7d"⟩
      = .ok (.obj [("zpid", .num 42)]) :=
  ⟨by decide,
   C1_amended_apollo_first_forsale_key _ _
     (.obj [("apiCache",
        .str "\x7b\"listForSaleQuery\": \x7b\"property\": \x7b\"zpid\": 42\x7d\x7d\x7d")])
     "\x7b\"listForSaleQuery\": \x7b\"property\": \x7b\"zpid\": 42\x7d\x7d\x7d"
     [("listForSaleQuery", .obj [("property", .obj [("zpid", .num 42)])])]
     "listForSaleQuery" (.obj [("property", .obj [("zpid", .num 42)])])
     (.obj [("zpid", .num 42)])
     rfl rfl (by decide) (by decide) (by decide) (by decide) (by decide)⟩

/-- C4: for every listing page containing only the NEXT_DATA marker whose
payload parses and whose `props.initialReduxState.gdp.building` object
carries the seven source keys, extraction yields a record with exactly
the seven fixed fields (address, description, photos, zipcode, phone,
name, floor_plans) in that order and no others, each projected from its
fixed source key, with photos the list of the `url` field of each
`galleryPhotos` entry in order. -/
theorem C4_next_data_seven_fields
    (page : ListingPage) (text : String) (d props redux gdp b : Json)
    (address description : Json) (ps : List Json) (photos : List Json)
    (zipcode phone name floorPlans : Json)
    (h0 : page.nextData = some text) (h0b : page.apolloData = none)
    (h1 : jsonLoads text = some d)
    (h2 : pySub d "props" = .ok props)
    (h3 : pySub props "initialReduxState" = .ok redux)
    (h4 : pySub redux "gdp" = .ok gdp)
    (h5 : pySub gdp "building" = .ok b)
    (h6 : pySub b "address" = .ok address)
    (h7 : pySub b "description" = .ok description)
    (h8 : pySub b "galleryPhotos" = .ok (.arr ps))
    (h9 : ps.mapM (fun p => pySub p "url") = .ok photos)
    (h10 : pySub b "zipcode" = .ok zipcode)
    (h11 : pySub b "buildingPhoneNumber" = .ok phone)
    (h12 : pySub b "buildingName" = .ok name)
    (h13 : pySub b "floorPlans" = .ok floorPlans) :
    scrape_property page = .ok (.obj
      [ ("address", address)
      , ("description", description)
      , ("photos", .arr photos)
      , ("zipcode", zipcode)
      , ("phone", phone)
      , ("name", name)
      , ("floor_plans", floorPlans)
      ]) := by
  obtain ⟨nd, ap⟩ := page
  simp only at h0 h0b
  subst h0; subst h0b
  simp only [scrape_property, parse_property, h1, toExcept, Bind.bind, Except.bind,
    h2, h3, h4, h5, h6, h7, h8, h9, h10, h11, h12, h13, pyIter, Pure.pure, Except.pure]

set_option maxRecDepth 100000 in
/-- Witness for C4 at a concrete NEXT_DATA page. -/
theorem C4_witness :
    jsonLoads "\x7b\"props\": \x7b\"initialReduxState\": \x7b\"gdp\": \x7b\"building\": \x7b\"address\": 1, \"description\": 2, \"galleryPhotos\": [\x7b\"url\": 3\x7d], \"zipcode\": 4, \"buildingPhoneNumber\": 5, \"buildingName\": 6, \"floorPlans\": 7\x7d\x7d\x7d\x7d\x7d"
      = some (.obj [("props", .obj [("initialReduxState", .obj [("gdp", .obj [("building",
          .obj [ ("address", .num 1), ("description", .num 2)
               , ("galleryPhotos", .arr [.obj [("url", .num 3)]])
               , ("zipcode", .num 4), ("buildingPhoneNumber", .num 5)
               , ("buildingName", .num 6), ("floorPlans", .num 7)])])])])])
    ∧ scrape_property
        ⟨some "\x7b\"props\": \x7b\"initialReduxState\": \x7b\"gdp\": \x7b\"building\": \x7b\"address\": 1, \"description\": 2, \"galleryPhotos\": [\x7b\"url\": 3\x7d], \"zipcode\": 4, \"buildingPhoneNumber\": 5, \"buildingName\": 6, \"floorPlans\": 7\x7d\x7d\x7d\x7d\x7d",
         none⟩
      = .ok (.obj
          [ ("address", .num 1), ("description", .num 2), ("photos", .arr [.num 3])
          , ("zipcode", .num 4), ("phone", .num 5), ("name", .num 6)
          , ("floor_plans", .num 7)]) :=
  ⟨by decide,
   C4_next_data_seven_fields _ _
     (.obj [("props", .obj [("initialReduxState", .obj [("gdp", .obj [("building",
        .obj [ ("address", .num 1), ("description", .num 2)
             , ("galleryPhotos", .arr [.obj [("url", .num 3)]])
             , ("zipcode", .num 4), ("buildingPhoneNumber", .num 5)
             , ("buildingName", .num 6), ("floorPlans", .num 7)])])])])])
     (.obj [("initialReduxState", .obj [("gdp", .obj [("building",
        .obj [ ("address", .num 1), ("description", .num 2)
             , ("galleryPhotos", .arr [.obj [("url", .num 3)]])
             , ("zipcode", .num 4), ("buildingPhoneNumber", .num 5)
             , ("buildingName", .num 6), ("floorPlans", .num 7)])])])])
     (.obj [("gdp", .obj [("building",
        .obj [ ("address", .num 1), ("description", .num 2)
             , ("galleryPhotos", .arr [.obj [("url", .num 3)]])
             , ("zipcode", .num 4), ("buildingPhoneNumber", .num 5)
             , ("buildingName", .num 6), ("floorPlans", .num 7)])])])
     (.obj [("building",
        .obj [ ("address", .num 1), ("description", .num 2)
             , ("galleryPhotos", .arr [.obj [("url", .num 3)]])
             , ("zipcode", .num 4), ("buildingPhoneNumber", .num 5)
             , ("buildingName", .num 6), ("floorPlans", .num 7)])])
     (.obj [ ("address", .num 1), ("description", .num 2)
           , ("galleryPhotos", .arr [.obj [("url", .num 3)]])
           , ("zipcode", .num 4), ("buildingPhoneNumber", .num 5)
           , ("buildingName", .num 6), ("floorPlans", .num 7)])
     (.num 1) (.num 2) [.obj [("url", .num 3)]] [.num 3] (.num 4) (.num 5) (.num 6) (.num 7)
     rfl rfl (by decide) (by decide) (by decide) (by decide) (by decide) (by decide)
     (by decide) (by decide) (by decide) (by decide) (by decide) (by decide) (by decide)⟩

/-- C3 fails on the code for an EMPTY supplied filter mapping: the guard
`if filters:` is Python truthiness, which is false for an empty dict, so
the replacement is skipped and the original `filterState` of the
query-state reappears in the constructed request instead of the supplied
(empty) mapping. -/
theorem C3_counterexample :
    pyTruthy (Json.obj []) = false
    ∧ (zillow_request
          "\"queryState\":\x7b\"filterState\":\x7b\"old\":\x7b\"value\":true\x7d\x7d\x7d, \"filter"
          (fun _ => "") (fun _ => 2) (some (.obj [])) ["cat1"]).1.map
        (fun r => pySub r.searchQueryState "filterState")
      = [.ok (.obj [("old", .obj [("value", .bool true)])])]
    ∧ Json.obj [("old", .obj [("value", .bool true)])] ≠ .obj [] := by
  refine ⟨by decide, by decide, by decide⟩

/-- C3 amended: for every supplied TRUTHY (non-empty) filter mapping, the
query-state's `filterState` section in every constructed API request
equals exactly the supplied mapping — full replacement, never a merge, so
no key of the original filter section survives outside the supplied
mapping. -/
theorem C3_amended_truthy_filters_fully_replace
    (body : String) (api : ApiRequest → String) (rids : Nat → Nat)
    (f : Json) (categories : List String) (cap : List Char) (fs0 : List (String × Json))
    (hf : pyTruthy f = true)
    (h1 : findQueryState body.data = some cap)
    (h2 : jsonLoads (String.mk cap) = some (.obj fs0)) :
    ∀ req ∈ (zillow_request body api rids (some f) categories).1,
      pySub req.searchQueryState "filterState" = .ok f := by
  intro req hreq
  simp only [zillow_request, h1, h2, pyTruthyOpt, hf, if_true, Option.getD, pyAssign] at hreq
  have hsq := zillowLoop_searchQueryState api rids
    (.obj (insertKey fs0 "filterState" f)) categories 0 req hreq
  rw [hsq]
  simp [pySub, lookupKey_insertKey, toExcept]

/-- Witness for the amended C3: a truthy filter mapping fully replaces a
pre-existing filter section. -/
theorem C3_amended_witness :
    pyTruthy (Json.obj [("isForRent", .obj [("value", .bool true)])]) = true
    ∧ findQueryState
        "\"queryState\":\x7b\"filterState\":\x7b\"old\":\x7b\"value\":true\x7d\x7d\x7d, \"filter".data
      = some "\x7b\"filterState\":\x7b\"old\":\x7b\"value\":true\x7d\x7d\x7d".data
    ∧ jsonLoads (String.mk "\x7b\"filterState\":\x7b\"old\":\x7b\"value\":true\x7d\x7d\x7d".data)
      = some (.obj [("filterState", .obj [("old", .obj [("value", .bool true)])])])
    ∧ ∀ req ∈ (zillow_request
          "\"queryState\":\x7b\"filterState\":\x7b\"old\":\x7b\"value\":true\x7d\x7d\x7d, \"filter"
          (fun _ => "") (fun _ => 2)
          (some (.obj [("isForRent", .obj [("value", .bool true)])])) ["cat1"]).1,
        pySub req.searchQueryState "filterState"
          = .ok (.obj [("isForRent", .obj [("value", .bool true)])]) :=
  ⟨by decide, by decide, by decide,
   C3_amended_truthy_filters_fully_replace _ _ _ _ _
     "\x7b\"filterState\":\x7b\"old\":\x7b\"value\":true\x7d\x7d\x7d".data
     [("filterState", .obj [("old", .obj [("value", .bool true)])])]
     (by decide) (by decide) (by decide)⟩

/-- C7 is right about the intended behavior but the code contradicts it
(the defect §9 of the spec flags): `find_properties` resolves the
relative path against the site origin and scrapes that single URL, but
then applies `json.loads` to the LIST the extractor returns, which always
raises TypeError — it never returns the parsed record. -/
theorem C7_find_properties_always_type_error
    (fetch : String → ListingPage) (url : String) (recs : List Json)
    (h : scrape_properties fetch ["https://www.zillow.com" ++ url] = .ok recs) :
    find_properties fetch url = .error .loadsTypeError := by
  simp only [find_properties, h, Bind.bind, Except.bind, pyLoads]

/-- Witness for C7: a URL whose page extracts successfully, on which
`find_properties` nevertheless raises the TypeError. -/
theorem C7_witness :
    scrape_properties
        (fun _ => ⟨none, some "\x7b\"apiCache\": \"\x7b\\\"zForSale\\\": \x7b\\\"property\\\": 9\x7d\x7d\"\x7d"⟩)
        ["https://www.zillow.com" ++ "/b/test-apartments/"]
      = .ok [.num 9]
    ∧ find_properties
        (fun _ => ⟨none, some "\x7b\"apiCache\": \"\x7b\\\"zForSale\\\": \x7b\\\"property\\\": 9\x7d\x7d\"\x7d"⟩)
        "/b/test-apartments/"
      = .error .loadsTypeError :=
  ⟨by decide,
   C7_find_properties_always_type_error _ _ [.num 9] (by decide)⟩

theorem zillowLoop_ok (api : ApiRequest → String) (rids : Nat → Nat) (qd : Json)
    (L : Nat → List Json) :
    ∀ (cats : List String) (i : Nat),
      (∀ j (hj : j < cats.length),
          categoryStep api (mkRequest qd (cats.get ⟨j, hj⟩) (rids (i + j))) (cats.get ⟨j, hj⟩)
            = .ok (L (i + j))) →
      zillowLoop api rids qd i cats
        = (loopRequests qd rids i cats, .ok (loopResults L i cats.length)) := by
  intro cats
  induction cats with
  | nil => intro i h; rfl
  | cons c cs ih =>
      intro i h
      have h0 : categoryStep api (mkRequest qd c (rids i)) c = .ok (L i) :=
        h 0 (Nat.succ_pos _)
      have hrec := ih (i + 1) (fun j hj => by
        have h' := h (j + 1) (Nat.succ_lt_succ hj)
        have harith : i + (j + 1) = i + 1 + j := by omega
        rw [harith] at h'
        exact h')
      rw [zillowLoop, h0, hrec]
      simp [loopRequests, loopResults, Except.map]

theorem loopResults_length (L : Nat → List Json) :
    ∀ n i, (loopResults L i n).length
      = ((List.range n).map (fun j => (L (i + j)).length)).sum := by
  intro n
  induction n with
  | zero => intro i; rfl
  | succ n ih =>
      intro i
      have hfun : ((fun j => (L (i + j)).length) ∘ Nat.succ)
          = (fun j => (L (i + 1 + j)).length) := by
        funext j
        have harith : i + Nat.succ j = i + 1 + j := by omega
        simp [Function.comp, harith]
      simp only [loopResults, List.length_append, ih (i + 1),
        List.range_succ_eq_map, List.map_cons, List.map_map, List.sum_cons,
        Nat.add_zero, hfun]

/-- C2: for every query whose landing page yields a query-state and every
tuple of category names, when every category's API response is
well-formed the Query Builder returns the concatenation of the
per-category `mapResults` lists, in category iteration order then
per-category order, and the combined length equals the sum of the
per-category lengths. -/
theorem C2_concatenates_categories_in_order
    (body : String) (api : ApiRequest → String) (rids : Nat → Nat)
    (filters : Option Json) (categories : List String)
    (cap : List Char) (qd0 qd : Json) (L : Nat → List Json)
    (h1 : findQueryState body.data = some cap)
    (h2 : jsonLoads (String.mk cap) = some qd0)
    (h3 : (if pyTruthyOpt filters then pyAssign qd0 "filterState" (filters.getD .null)
           else .ok qd0) = .ok qd)
    (h4 : ∀ j (hj : j < categories.length),
        categoryStep api (mkRequest qd (categories.get ⟨j, hj⟩) (rids j))
            (categories.get ⟨j, hj⟩)
          = .ok (L j)) :
    zillow_request body api rids filters categories
      = (loopRequests qd rids 0 categories, .ok (loopResults L 0 categories.length))
    ∧ (loopResults L 0 categories.length).length
      = ((List.range categories.length).map (fun j => (L j).length)).sum := by
  constructor
  · simp only [zillow_request, h1, h2, h3]
    exact zillowLoop_ok api rids qd L categories 0 (fun j hj => by
      simpa [Nat.zero_add] using h4 j hj)
  · simpa using loopResults_length L categories.length 0

set_option maxRecDepth 200000 in
/-- Witness for C2: a concrete two-category search; the combined list is
cat1's mapResults followed by cat2's, and its length is the sum. -/
theorem C2_witness :
    findQueryState "\"queryState\":\x7b\"mapBounds\":1\x7d, \"filter".data
      = some "\x7b\"mapBounds\":1\x7d".data
    ∧ zillow_request "\"queryState\":\x7b\"mapBounds\":1\x7d, \"filter"
        (fun req => if req.wants = Json.obj [("cat1", .arr [.str "mapResults"])]
          then "\x7b\"categoryTotals\": \x7b\"cat1\": \x7b\"totalResultCount\": 1\x7d\x7d, \"cat1\": \x7b\"searchResults\": \x7b\"mapResults\": [10]\x7d\x7d\x7d"
          else "\x7b\"categoryTotals\": \x7b\"cat2\": \x7b\"totalResultCount\": 2\x7d\x7d, \"cat2\": \x7b\"searchResults\": \x7b\"mapResults\": [20, 30]\x7d\x7d\x7d")
        (fun i => i + 2) none ["cat1", "cat2"]
      = (loopRequests (.obj [("mapBounds", .num 1)]) (fun i => i + 2) 0 ["cat1", "cat2"],
         .ok (loopResults (fun j => if j = 0 then [.num 10] else [.num 20, .num 30]) 0 2))
    ∧ loopResults (fun j => if j = 0 then [.num 10] else [.num 20, .num 30]) 0 2
      = [.num 10, .num 20, .num 30]
    ∧ (loopResults (fun j => if j = 0 then [.num 10] else [.num 20, .num 30]) 0 2).length
      = ((List.range 2).map
          (fun j => ((fun j => if j = 0 then [.num 10] else [.num 20, .num 30] : Nat → List Json) j).length)).sum := by
  have happ := C2_concatenates_categories_in_order
    "\"queryState\":\x7b\"mapBounds\":1\x7d, \"filter"
    (fun req => if req.wants = Json.obj [("cat1", .arr [.str "mapResults"])]
      then "\x7b\"categoryTotals\": \x7b\"cat1\": \x7b\"totalResultCount\": 1\x7d\x7d, \"cat1\": \x7b\"searchResults\": \x7b\"mapResults\": [10]\x7d\x7d\x7d"
      else "\x7b\"categoryTotals\": \x7b\"cat2\": \x7b\"totalResultCount\": 2\x7d\x7d, \"cat2\": \x7b\"searchResults\": \x7b\"mapResults\": [20, 30]\x7d\x7d\x7d")
    (fun i => i + 2) none ["cat1", "cat2"]
    "\x7b\"mapBounds\":1\x7d".data (.obj [("mapBounds", .num 1)]) (.obj [("mapBounds", .num 1)])
    (fun j => if j = 0 then [.num 10] else [.num 20, .num 30])
    (by decide) (by decide) (by decide) (by decide)
  exact ⟨by decide, happ.1, by decide, happ.2⟩

/-! ### Round-trip of `jsonDumps` and `jsonLoads`

`find_listings` applies `json.loads(json.dumps(data))` to the rent-search
result; the following lemma stack shows this round-trip is the identity
on well-formed (`Json.wf`, no duplicated dict key) values. -/

theorem skipWs_cons_of_not_ws {c : Char} (t : List Char) (h : isJsonWs c = false) :
    skipWs (c :: t) = c :: t := by
  simp [skipWs, List.dropWhile_cons, h]

theorem isPrefixOf_append_self (l r : List Char) : l.isPrefixOf (l ++ r) = true := by
  induction l with
  | nil => simp [List.isPrefixOf]
  | cons a as ih => simp [List.isPrefixOf, ih]

theorem digit_head_spec (c : Char) (h : c.isDigit = true) :
    c ≠ '\x7b' ∧ c ≠ '[' ∧ c ≠ '"' ∧ c ≠ 't' ∧ c ≠ 'f' ∧ c ≠ 'n' ∧ c ≠ '-'
    ∧ c ≠ ']' ∧ c ≠ '\x7d' ∧ isJsonWs c = false := by
  refine ⟨?_, ?_, ?_, ?_, ?_, ?_, ?_, ?_, ?_, ?_⟩
  · intro hc; subst hc; exact absurd h (by decide)
  · intro hc; subst hc; exact absurd h (by decide)
  · intro hc; subst hc; exact absurd h (by decide)
  · intro hc; subst hc; exact absurd h (by decide)
  · intro hc; subst hc; exact absurd h (by decide)
  · intro hc; subst hc; exact absurd h (by decide)
  · intro hc; subst hc; exact absurd h (by decide)
  · intro hc; subst hc; exact absurd h (by decide)
  · intro hc; subst hc; exact absurd h (by decide)
  · rcases hw : isJsonWs c with _ | _
    · rfl
    · exfalso
      simp only [isJsonWs, Bool.or_eq_true, decide_eq_true_eq] at hw
      rcases hw with ((h1 | h1) | h1) | h1 <;> subst h1 <;> exact absurd h (by decide)

theorem parseStrChars_dumps :
    ∀ (cs rest : List Char),
      parseStrChars (escList cs ++ ('"' :: rest)) = some (cs, rest) := by
  intro cs
  induction cs with
  | nil => intro rest; simp [escList, parseStrChars]
  | cons c cs ih =>
      intro rest
      by_cases h1 : c = '"'
      · subst h1; simp [escList, escChar, parseStrChars, unescape, ih]
      · by_cases h2 : c = '\\'
        · subst h2; simp [escList, escChar, parseStrChars, unescape, ih]
        · by_cases h3 : c = '\n'
          · subst h3; simp [escList, escChar, parseStrChars, unescape, ih]
          · by_cases h4 : c = '\t'
            · subst h4; simp [escList, escChar, parseStrChars, unescape, ih]
            · by_cases h5 : c = '\r'
              · subst h5; simp [escList, escChar, parseStrChars, unescape, ih]
              · simp [escList, escChar, h1, h2, h3, h4, h5, parseStrChars, ih]

theorem digitChar_isDigit (k : Nat) (h : k < 10) : (Char.ofNat (48 + k)).isDigit = true := by
  interval_cases k <;> decide

theorem digitChar_toNat (k : Nat) (h : k < 10) : (Char.ofNat (48 + k)).toNat = 48 + k := by
  interval_cases k <;> decide

theorem parseDigitsAux_append :
    ∀ (ds : List Char) (acc : Nat) (rest : List Char),
      (∀ c ∈ ds, c.isDigit = true) → noDigitHead rest = true →
      parseDigitsAux acc (ds ++ rest) = (foldDigits acc ds, rest) := by
  intro ds
  induction ds with
  | nil =>
      intro acc rest hds hrest
      cases rest with
      | nil => rfl
      | cons c t =>
          have hc : c.isDigit = false := by simpa [noDigitHead] using hrest
          simp [parseDigitsAux, hc, foldDigits]
  | cons d ds ih =>
      intro acc rest hds hrest
      have hd : d.isDigit = true := hds d (by simp)
      simp only [List.cons_append, parseDigitsAux, hd, if_true, foldDigits,
        List.foldl_cons]
      exact ih _ rest (fun c hc => hds c (by simp [hc])) hrest

theorem dumpNatAux_digits :
    ∀ fuel n, n < 10 ^ (fuel + 1) → ∀ c ∈ dumpNatAux (fuel + 1) n, c.isDigit = true := by
  intro fuel
  induction fuel with
  | zero =>
      intro n hn c hc
      rw [dumpNatAux, if_pos (by simpa using hn)] at hc
      simp at hc
      subst hc
      exact digitChar_isDigit n (by simpa using hn)
  | succ fuel ih =>
      intro n hn c hc
      rw [dumpNatAux] at hc
      by_cases h10 : n < 10
      · rw [if_pos h10] at hc
        simp at hc
        subst hc
        exact digitChar_isDigit n h10
      · rw [if_neg h10] at hc
        rcases List.mem_append.1 hc with hmem | hmem
        · refine ih (n / 10) ?_ c hmem
          rw [Nat.div_lt_iff_lt_mul (by norm_num)]
          calc n < 10 ^ (fuel + 1 + 1) := hn
            _ = 10 ^ (fuel + 1) * 10 := by rw [pow_succ]
        · simp at hmem
          subst hmem
          exact digitChar_isDigit (n % 10) (Nat.mod_lt _ (by norm_num))

theorem dumpNatAux_ne_nil (fuel n : Nat) : dumpNatAux (fuel + 1) n ≠ [] := by
  rw [dumpNatAux]
  split
  · simp
  · simp

theorem dumpNatAux_fold :
    ∀ fuel n, n < 10 ^ (fuel + 1) → foldDigits 0 (dumpNatAux (fuel + 1) n) = n := by
  intro fuel
  induction fuel with
  | zero =>
      intro n hn
      have h10 : n < 10 := by simpa using hn
      rw [dumpNatAux, if_pos h10]
      simp [foldDigits, digitChar_toNat n h10]
  | succ fuel ih =>
      intro n hn
      by_cases h10 : n < 10
      · rw [dumpNatAux, if_pos h10]
        simp [foldDigits, digitChar_toNat n h10]
      · rw [dumpNatAux, if_neg h10]
        have hq : n / 10 < 10 ^ (fuel + 1) := by
          rw [Nat.div_lt_iff_lt_mul (by norm_num)]
          calc n < 10 ^ (fuel + 1 + 1) := hn
            _ = 10 ^ (fuel + 1) * 10 := by rw [pow_succ]
        have hfold := ih (n / 10) hq
        simp only [foldDigits, List.foldl_append, List.foldl_cons, List.foldl_nil] at hfold ⊢
        rw [hfold, digitChar_toNat (n % 10) (Nat.mod_lt _ (by norm_num))]
        omega

theorem nat_lt_pow_succ (n : Nat) : n < 10 ^ (n + 1) := by
  calc n < 10 ^ n := Nat.lt_pow_self (by norm_num) n
    _ ≤ 10 ^ (n + 1) := Nat.pow_le_pow_right (by norm_num) (by omega)

theorem dumpNat_digits (n : Nat) : ∀ c ∈ dumpNat n, c.isDigit = true :=
  dumpNatAux_digits n n (nat_lt_pow_succ n)

theorem dumpNat_ne_nil (n : Nat) : dumpNat n ≠ [] := dumpNatAux_ne_nil n n

theorem dumpNat_fold (n : Nat) : foldDigits 0 (dumpNat n) = n :=
  dumpNatAux_fold n n (nat_lt_pow_succ n)

theorem parseDigits_dumpNat (n : Nat) (rest : List Char)
    (hrest : noDigitHead rest = true) :
    parseDigits (dumpNat n ++ rest) = some (n, rest) := by
  rcases hds : dumpNat n with _ | ⟨d, ds⟩
  · exact absurd hds (dumpNat_ne_nil n)
  · have hdig := dumpNat_digits n
    rw [hds] at hdig
    have hd : d.isDigit = true := hdig d (by simp)
    have hfold := dumpNat_fold n
    rw [hds] at hfold
    simp only [foldDigits, List.foldl_cons, Nat.zero_mul, Nat.zero_add] at hfold
    simp only [List.cons_append, parseDigits, hd, if_true]
    rw [parseDigitsAux_append ds _ rest (fun c hc => hdig c (by simp [hc])) hrest]
    rw [show foldDigits (d.toNat - 48) ds = n from hfold]

theorem dumps_head_spec (v : Json) :
    ∃ c t, dumpsChars v = c :: t ∧ isJsonWs c = false ∧ c ≠ ']' ∧ c ≠ '\x7d' := by
  cases v with
  | null => exact ⟨'n', "ull".data, by decide, by decide, by decide, by decide⟩
  | bool b =>
      cases b
      · exact ⟨'f', "alse".data, by decide, by decide, by decide, by decide⟩
      · exact ⟨'t', "rue".data, by decide, by decide, by decide, by decide⟩
  | num n =>
      by_cases hn : n < 0
      · exact ⟨'-', dumpNat (-n).toNat, by simp [dumpsChars, dumpInt, hn], by decide,
          by decide, by decide⟩
      · rcases hds : dumpNat n.toNat with _ | ⟨d, ds⟩
        · exact absurd hds (dumpNat_ne_nil _)
        · have hd : d.isDigit = true := by
            have := dumpNat_digits n.toNat
            rw [hds] at this
            exact this d (by simp)
          obtain ⟨_, _, _, _, _, _, _, h8, h9, h10⟩ := digit_head_spec d hd
          exact ⟨d, ds, by simp [dumpsChars, dumpInt, hn, hds], h10, h8, h9⟩
  | str s => exact ⟨'"', escList s.data ++ ['"'], rfl, by decide, by decide, by decide⟩
  | arr xs =>
      cases xs with
      | nil => exact ⟨'[', [']'], by decide, by decide, by decide, by decide⟩
      | cons x xs =>
          exact ⟨'[', (dumpsChars x ++ dumpItemsChars xs) ++ [']'], rfl, by decide,
            by decide, by decide⟩
  | obj fs =>
      cases fs with
      | nil => exact ⟨'\x7b', ['\x7d'], by decide, by decide, by decide, by decide⟩
      | cons f fs =>
          exact ⟨'\x7b',
            ((dumpStr f.1 ++ ':' :: ' ' :: dumpsChars f.2) ++ dumpFieldsChars fs) ++ ['\x7d'],
            rfl, by decide, by decide, by decide⟩

theorem dumps_ne_nil (v : Json) : dumpsChars v ≠ [] := by
  obtain ⟨c, t, heq, -, -, -⟩ := dumps_head_spec v
  simp [heq]

theorem dumps_length_pos (v : Json) : 1 ≤ (dumpsChars v).length := by
  have := dumps_ne_nil v
  have hp : 0 < (dumpsChars v).length := List.length_pos.2 this
  omega

theorem dumpItems_count_le :
    ∀ xs : List Json, xs.length ≤ (dumpItemsChars xs).length := by
  intro xs
  induction xs with
  | nil => simp [dumpItemsChars]
  | cons x xs ih =>
      have hx := dumps_length_pos x
      simp only [dumpItemsChars, List.length_cons, List.length_append]
      omega

theorem dumpItems_mem_le :
    ∀ (xs : List Json) (y : Json), y ∈ xs →
      (dumpsChars y).length + 2 ≤ (dumpItemsChars xs).length := by
  intro xs
  induction xs with
  | nil => intro y hy; simp at hy
  | cons x xs ih =>
      intro y hy
      simp only [dumpItemsChars, List.length_append, List.length_cons]
      rcases List.mem_cons.1 hy with h | h
      · subst h; omega
      · have := ih y h; omega

theorem dumpFields_count_le :
    ∀ fs : List (String × Json), fs.length ≤ (dumpFieldsChars fs).length := by
  intro fs
  induction fs with
  | nil => simp [dumpFieldsChars]
  | cons f fs ih =>
      have hv := dumps_length_pos f.2
      simp only [dumpFieldsChars, List.length_cons, List.length_append]
      omega

theorem dumpFields_mem_le :
    ∀ (fs : List (String × Json)) (g : String × Json), g ∈ fs →
      (dumpsChars g.2).length + 2 ≤ (dumpFieldsChars fs).length := by
  intro fs
  induction fs with
  | nil => intro g hg; simp at hg
  | cons f fs ih =>
      intro g hg
      simp only [dumpFieldsChars, List.length_append, List.length_cons]
      rcases List.mem_cons.1 hg with h | h
      · subst h; omega
      · have := ih g h; omega

theorem skipWs_dumps (v : Json) (r : List Char) :
    skipWs (dumpsChars v ++ r) = dumpsChars v ++ r := by
  obtain ⟨c, t, heq, hws, -, -⟩ := dumps_head_spec v
  rw [heq, List.cons_append]
  exact skipWs_cons_of_not_ws _ hws

theorem skipWs_ws_cons (s : List Char) : skipWs (' ' :: s) = skipWs s := by
  simp [skipWs, List.dropWhile_cons, isJsonWs]

theorem parseJson_ws (fuel : Nat) (s : List Char) :
    parseJson fuel (' ' :: s) = parseJson fuel s := by
  cases fuel with
  | zero => rfl
  | succ fuel => simp only [parseJson, skipWs_ws_cons]

theorem parseItemsAux_ws (p : List Char → Option (Json × List Char))
    (hws : ∀ s, p (' ' :: s) = p s) (fuel : Nat) (s : List Char) :
    parseItemsAux p fuel (' ' :: s) = parseItemsAux p fuel s := by
  cases fuel with
  | zero => rfl
  | succ fuel => simp only [parseItemsAux, hws]

theorem parseFieldsAux_ws (p : List Char → Option (Json × List Char))
    (fuel : Nat) (s : List Char) :
    parseFieldsAux p fuel (' ' :: s) = parseFieldsAux p fuel s := by
  cases fuel with
  | zero => rfl
  | succ fuel => simp only [parseFieldsAux, skipWs_ws_cons]

theorem insertKey_fresh :
    ∀ (acc : List (String × Json)) (k : String) (v : Json),
      (∀ g ∈ acc, g.1 ≠ k) → insertKey acc k v = acc ++ [(k, v)] := by
  intro acc
  induction acc with
  | nil => intro k v h; rfl
  | cons g acc ih =>
      intro k v h
      obtain ⟨k1, w⟩ := g
      have hne : k1 ≠ k := h (k1, w) (by simp)
      simp [insertKey, hne]
      exact ih k v (fun g hg => h g (by simp [hg]))

theorem dedup_foldl :
    ∀ (fs acc : List (String × Json)), nodupKeys fs = true →
      (∀ g ∈ acc, ∀ f ∈ fs, g.1 ≠ f.1) →
      fs.foldl (fun a kv => insertKey a kv.1 kv.2) acc = acc ++ fs := by
  intro fs
  induction fs with
  | nil => intro acc _ _; simp
  | cons f fs ih =>
      intro acc hnod hdisj
      obtain ⟨k, v⟩ := f
      simp only [nodupKeys, Bool.and_eq_true, Bool.not_eq_true', List.any_eq_false,
        beq_iff_eq] at hnod
      obtain ⟨hk, hnod2⟩ := hnod
      have hins : insertKey acc k v = acc ++ [(k, v)] :=
        insertKey_fresh acc k v (fun g hg => hdisj g hg (k, v) (by simp))
      simp only [List.foldl_cons, hins]
      rw [ih (acc ++ [(k, v)]) hnod2 ?_]
      · simp
      · intro g hg f2 hf2
        rcases List.mem_append.1 hg with h | h
        · exact hdisj g h f2 (by simp [hf2])
        · simp at h
          subst h
          exact fun hcontra => hk f2 hf2 hcontra.symm

theorem dedupFields_of_nodup (fs : List (String × Json)) (h : nodupKeys fs = true) :
    dedupFields fs = fs := by
  simpa [dedupFields] using dedup_foldl fs [] h (by simp)

theorem wfList_mem :
    ∀ (xs : List Json), wfList xs = true → ∀ x ∈ xs, Json.wf x = true := by
  intro xs
  induction xs with
  | nil => intro _ x hx; simp at hx
  | cons y ys ih =>
      intro h x hx
      simp only [wfList, Bool.and_eq_true] at h
      rcases List.mem_cons.1 hx with hh | hh
      · subst hh; exact h.1
      · exact ih h.2 x hh

theorem wfFields_mem :
    ∀ (fs : List (String × Json)), wfFields fs = true → ∀ g ∈ fs, Json.wf g.2 = true := by
  intro fs
  induction fs with
  | nil => intro _ g hg; simp at hg
  | cons f fs ih =>
      intro h g hg
      simp only [wfFields, Bool.and_eq_true] at h
      rcases List.mem_cons.1 hg with hh | hh
      · subst hh; exact h.1
      · exact ih h.2 g hh

theorem parseItemsAux_dumps (p : List Char → Option (Json × List Char))
    (hws : ∀ s, p (' ' :: s) = p s) :
    ∀ (xs : List Json) (x : Json) (fuelA : Nat) (rest : List Char),
      (∀ y ∈ x :: xs, ∀ r, noDigitHead r = true → p (dumpsChars y ++ r) = some (y, r)) →
      xs.length < fuelA → noDigitHead rest = true →
      parseItemsAux p fuelA (dumpsChars x ++ (dumpItemsChars xs ++ (']' :: rest)))
        = some (x :: xs, rest) := by
  intro xs
  induction xs with
  | nil =>
      intro x fuelA rest hp hfuel hrest
      obtain ⟨fA, rfl⟩ : ∃ fA, fuelA = fA + 1 := ⟨fuelA - 1, by omega⟩
      have hx := hp x (by simp) (']' :: rest) rfl
      simp only [dumpItemsChars, List.nil_append, parseItemsAux, hx]
      rw [show skipWs (']' :: rest) = ']' :: rest from skipWs_cons_of_not_ws _ (by decide)]
      rfl
  | cons y ys ih =>
      intro x fuelA rest hp hfuel hrest
      obtain ⟨fA, rfl⟩ : ∃ fA, fuelA = fA + 1 := ⟨fuelA - 1, by omega⟩
      have hx := hp x (by simp) (dumpItemsChars (y :: ys) ++ (']' :: rest))
        (by simp [dumpItemsChars, noDigitHead])
      simp only [parseItemsAux, hx]
      simp only [dumpItemsChars, List.cons_append, List.append_assoc]
      rw [show skipWs (',' :: ' ' :: (dumpsChars y ++ (dumpItemsChars ys ++ (']' :: rest))))
            = ',' :: ' ' :: (dumpsChars y ++ (dumpItemsChars ys ++ (']' :: rest)))
          from skipWs_cons_of_not_ws _ (by decide)]
      show Option.map (fun q => (x :: q.1, q.2))
          (parseItemsAux p fA (' ' :: (dumpsChars y ++ (dumpItemsChars ys ++ (']' :: rest)))))
        = some (x :: y :: ys, rest)
      rw [parseItemsAux_ws p hws fA _]
      rw [ih y fA rest (fun z hz r hr => hp z (by simp at hz ⊢; tauto) r hr)
        (by simpa using hfuel) hrest]
      rfl

theorem skipWs_quote (w : List Char) : skipWs ('"' :: w) = '"' :: w :=
  skipWs_cons_of_not_ws w (by decide)

theorem skipWs_colon (w : List Char) : skipWs (':' :: w) = ':' :: w :=
  skipWs_cons_of_not_ws w (by decide)

theorem skipWs_comma (w : List Char) : skipWs (',' :: w) = ',' :: w :=
  skipWs_cons_of_not_ws w (by decide)

theorem skipWs_rbrace (w : List Char) : skipWs ('\x7d' :: w) = '\x7d' :: w :=
  skipWs_cons_of_not_ws w (by decide)

theorem skipWs_rbracket (w : List Char) : skipWs (']' :: w) = ']' :: w :=
  skipWs_cons_of_not_ws w (by decide)

theorem parseFieldsAux_dumps (p : List Char → Option (Json × List Char))
    (hws : ∀ s, p (' ' :: s) = p s) :
    ∀ (fs : List (String × Json)) (k : String) (v : Json) (fuelA : Nat) (rest : List Char),
      (∀ g ∈ (k, v) :: fs, ∀ r, noDigitHead r = true → p (dumpsChars g.2 ++ r) = some (g.2, r)) →
      fs.length < fuelA → noDigitHead rest = true →
      parseFieldsAux p fuelA
          ((dumpStr k ++ ':' :: ' ' :: dumpsChars v) ++ (dumpFieldsChars fs ++ ('\x7d' :: rest)))
        = some ((k, v) :: fs, rest) := by
  intro fs
  induction fs with
  | nil =>
      intro k v fuelA rest hp hfuel hrest
      obtain ⟨fA, rfl⟩ : ∃ fA, fuelA = fA + 1 := ⟨fuelA - 1, by omega⟩
      have hv : p (dumpsChars v ++ ('\x7d' :: rest)) = some (v, '\x7d' :: rest) :=
        hp (k, v) (by simp) ('\x7d' :: rest) rfl
      simp only [parseFieldsAux, dumpFieldsChars, List.nil_append, dumpStr,
        List.cons_append, List.append_assoc, List.singleton_append]
      rw [skipWs_quote]
      simp only [parseStrChars_dumps]
      rw [skipWs_colon]
      simp only [hws, hv]
      rw [skipWs_rbrace]
      rfl
  | cons g gs ih =>
      intro k v fuelA rest hp hfuel hrest
      obtain ⟨fA, rfl⟩ : ∃ fA, fuelA = fA + 1 := ⟨fuelA - 1, by omega⟩
      obtain ⟨k2, v2⟩ := g
      have hv : p (dumpsChars v ++ (',' :: ' ' :: ('"' :: (escList k2.data ++ ('"' :: (':' :: ' ' :: (dumpsChars v2 ++ (dumpFieldsChars gs ++ ('\x7d' :: rest)))))))))
          = some (v, ',' :: ' ' :: ('"' :: (escList k2.data ++ ('"' :: (':' :: ' ' :: (dumpsChars v2 ++ (dumpFieldsChars gs ++ ('\x7d' :: rest)))))))) :=
        hp (k, v) (by simp) _ rfl
      simp only [parseFieldsAux, dumpFieldsChars, dumpStr, List.cons_append,
        List.append_assoc, List.singleton_append]
      rw [skipWs_quote]
      simp only [parseStrChars_dumps, List.nil_append]
      rw [skipWs_colon]
      simp only [hws, hv]
      rw [skipWs_comma]
      show Option.map (fun q => ((k, v) :: q.1, q.2))
          (parseFieldsAux p fA (' ' :: ('"' :: (escList k2.data ++ ('"' :: (':' :: ' ' :: (dumpsChars v2 ++ (dumpFieldsChars gs ++ ('\x7d' :: rest)))))))))
        = some ((k, v) :: (k2, v2) :: gs, rest)
      rw [parseFieldsAux_ws p fA _]
      have hrec := ih k2 v2 fA rest
        (fun g2 hg2 r hr => hp g2 (by simp at hg2 ⊢; tauto) r hr)
        (by simpa using hfuel) hrest
      simp only [dumpStr, List.cons_append, List.append_assoc, List.singleton_append,
        List.nil_append] at hrec
      rw [hrec]
      rfl

theorem parseJson_cons_eval (f : Nat) (c : Char) (t : List Char) (h : isJsonWs c = false) :
    parseJson (f + 1) (c :: t)
      = (if c = '\x7b' then
            match skipWs t with
            | '\x7d' :: r => some (Json.obj [], r)
            | _ => (parseFieldsAux (parseJson f) (f + 1) t).map
                     (fun q => (Json.obj (dedupFields q.1), q.2))
          else if c = '[' then
            match skipWs t with
            | ']' :: r => some (Json.arr [], r)
            | _ => (parseItemsAux (parseJson f) (f + 1) t).map
                     (fun q => (Json.arr q.1, q.2))
          else if c = '"' then
            (parseStrChars t).map (fun p => (Json.str (String.mk p.1), p.2))
          else if c = 't' then
            (if "rue".data.isPrefixOf t then some (Json.bool true, t.drop 3) else none)
          else if c = 'f' then
            (if "alse".data.isPrefixOf t then some (Json.bool false, t.drop 4) else none)
          else if c = 'n' then
            (if "ull".data.isPrefixOf t then some (Json.null, t.drop 3) else none)
          else if c = '-' then
            (parseDigits t).map (fun p => (Json.num (-(p.1 : Int)), p.2))
          else if c.isDigit then
            (parseDigits (c :: t)).map (fun p => (Json.num (p.1 : Int), p.2))
          else none) := by
  simp only [parseJson]
  rw [skipWs_cons_of_not_ws _ h]

theorem parseJson_dumps :
    ∀ (N : Nat) (v : Json), sizeOf v ≤ N → Json.wf v = true →
      ∀ (fuel : Nat), (dumpsChars v).length < fuel →
      ∀ (rest : List Char), noDigitHead rest = true →
        parseJson fuel (dumpsChars v ++ rest) = some (v, rest) := by
  intro N
  induction N with
  | zero =>
      intro v hsz
      exfalso
      cases v <;> simp at hsz <;> omega
  | succ N ihN =>
      intro v hsz hwf fuel hfuel rest hrest
      obtain ⟨f, rfl⟩ : ∃ f, fuel = f + 1 := ⟨fuel - 1, by omega⟩
      cases v with
      | null =>
          show parseJson (f + 1) ('n' :: ("ull".data ++ rest)) = some (.null, rest)
          rw [parseJson_cons_eval f 'n' _ (by decide)]
          rw [if_neg (show ¬('n' = '\x7b') from by decide),
            if_neg (show ¬('n' = '[') from by decide),
            if_neg (show ¬('n' = '"') from by decide),
            if_neg (show ¬('n' = 't') from by decide),
            if_neg (show ¬('n' = 'f') from by decide)]
          simp only [if_true, isPrefixOf_append_self, eq_self_iff_true]
          rw [show ("ull".data ++ rest).drop 3 = rest from by
            simpa using List.drop_left "ull".data rest]
      | bool b =>
          cases b with
          | false =>
              show parseJson (f + 1) ('f' :: ("alse".data ++ rest))
                = some (.bool false, rest)
              rw [parseJson_cons_eval f 'f' _ (by decide)]
              rw [if_neg (show ¬('f' = '\x7b') from by decide),
                if_neg (show ¬('f' = '[') from by decide),
                if_neg (show ¬('f' = '"') from by decide),
                if_neg (show ¬('f' = 't') from by decide)]
              simp only [if_true, isPrefixOf_append_self, eq_self_iff_true]
              rw [show ("alse".data ++ rest).drop 4 = rest from by
                simpa using List.drop_left "alse".data rest]
          | true =>
              show parseJson (f + 1) ('t' :: ("rue".data ++ rest))
                = some (.bool true, rest)
              rw [parseJson_cons_eval f 't' _ (by decide)]
              rw [if_neg (show ¬('t' = '\x7b') from by decide),
                if_neg (show ¬('t' = '[') from by decide),
                if_neg (show ¬('t' = '"') from by decide)]
              simp only [if_true, isPrefixOf_append_self, eq_self_iff_true]
              rw [show ("rue".data ++ rest).drop 3 = rest from by
                simpa using List.drop_left "rue".data rest]
      | str s =>
          show parseJson (f + 1) ('"' :: ((escList s.data ++ ['"']) ++ rest))
            = some (.str s, rest)
          simp only [List.append_assoc, List.singleton_append]
          rw [parseJson_cons_eval f '"' _ (by decide)]
          rw [if_neg (show ¬('"' = '\x7b') from by decide),
            if_neg (show ¬('"' = '[') from by decide)]
          simp only [if_true]
          rw [parseStrChars_dumps]
          rfl
      | num n =>
          by_cases hn : n < 0
          · rw [show dumpsChars (.num n) ++ rest = '-' :: (dumpNat (-n).toNat ++ rest) from by
              simp [dumpsChars, dumpInt, hn]]
            rw [parseJson_cons_eval f '-' _ (by decide)]
            rw [if_neg (show ¬('-' = '\x7b') from by decide),
              if_neg (show ¬('-' = '[') from by decide),
              if_neg (show ¬('-' = '"') from by decide),
              if_neg (show ¬('-' = 't') from by decide),
              if_neg (show ¬('-' = 'f') from by decide),
              if_neg (show ¬('-' = 'n') from by decide)]
            simp only [if_true]
            rw [parseDigits_dumpNat _ rest hrest]
            have htn : (((-n).toNat : Int)) = -n := Int.toNat_of_nonneg (by omega)
            simp [htn]
          · rcases hds : dumpNat n.toNat with _ | ⟨d, ds⟩
            · exact absurd hds (dumpNat_ne_nil _)
            · have hd : d.isDigit = true := by
                have := dumpNat_digits n.toNat
                rw [hds] at this
                exact this d (by simp)
              obtain ⟨hc1, hc2, hc3, hc4, hc5, hc6, hc7, -, -, hcws⟩ := digit_head_spec d hd
              rw [show dumpsChars (.num n) ++ rest = d :: (ds ++ rest) from by
                simp [dumpsChars, dumpInt, hn, hds]]
              rw [parseJson_cons_eval f d _ hcws]
              rw [if_neg hc1, if_neg hc2, if_neg hc3, if_neg hc4, if_neg hc5, if_neg hc6,
                if_neg hc7, if_pos hd]
              rw [show d :: (ds ++ rest) = dumpNat n.toNat ++ rest from by rw [hds]; rfl]
              rw [parseDigits_dumpNat _ rest hrest]
              have htn : ((n.toNat : Int)) = n := Int.toNat_of_nonneg (by omega)
              simp [htn]
      | arr xs =>
          cases xs with
          | nil =>
              show parseJson (f + 1) ('[' :: (']' :: rest)) = some (.arr [], rest)
              rw [parseJson_cons_eval f '[' _ (by decide)]
              rw [if_neg (show ¬('[' = '\x7b') from by decide)]
              simp only [if_true]
              rw [skipWs_rbracket]
              rfl
          | cons x xs =>
              have hlen : (dumpsChars (.arr (x :: xs))).length
                  = (dumpsChars x).length + (dumpItemsChars xs).length + 2 := by
                show ('[' :: (dumpsChars x ++ dumpItemsChars xs) ++ [']']).length = _
                simp [List.length_append]
                omega
              rw [show dumpsChars (Json.arr (x :: xs)) ++ rest
                    = '[' :: (dumpsChars x ++ (dumpItemsChars xs ++ (']' :: rest))) from by
                show ('[' :: (dumpsChars x ++ dumpItemsChars xs) ++ [']']) ++ rest = _
                simp [List.append_assoc]]
              rw [parseJson_cons_eval f '[' _ (by decide)]
              rw [if_neg (show ¬('[' = '\x7b') from by decide)]
              simp only [if_true]
              rw [skipWs_dumps x (dumpItemsChars xs ++ (']' :: rest))]
              obtain ⟨c, t2, heq, hcws, hcrb, hcrc⟩ := dumps_head_spec x
              rw [heq, List.cons_append]
              split
              · next r heq2 =>
                  exfalso
                  rw [List.cons.injEq] at heq2
                  exact hcrb heq2.1
              · next =>
                  rw [← List.cons_append, ← heq]
                  rw [parseItemsAux_dumps (parseJson f) (parseJson_ws f) xs x (f + 1) rest
                    ?_ ?_ hrest]
                  · rfl
                  · intro y hy r hr
                    refine ihN y ?_ ?_ f ?_ r hr
                    · have hmem := List.sizeOf_lt_of_mem hy
                      have harr : sizeOf (Json.arr (x :: xs)) = 1 + sizeOf (x :: xs) := by simp
                      omega
                    · exact wfList_mem (x :: xs) (by simpa [Json.wf] using hwf) y hy
                    · rw [hlen] at hfuel
                      rcases List.mem_cons.1 hy with h | h
                      · subst h; omega
                      · have := dumpItems_mem_le xs y h
                        omega
                  · rw [hlen] at hfuel
                    have h1 := dumpItems_count_le xs
                    have h2 := dumps_length_pos x
                    omega
      | obj fs =>
          cases fs with
          | nil =>
              show parseJson (f + 1) ('\x7b' :: ('\x7d' :: rest)) = some (.obj [], rest)
              rw [parseJson_cons_eval f '\x7b' _ (by decide)]
              simp only [if_true]
              rw [skipWs_rbrace]
              rfl
          | cons g fs =>
              obtain ⟨k, v⟩ := g
              have hwf2 : nodupKeys ((k, v) :: fs) = true ∧ wfFields ((k, v) :: fs) = true := by
                have hrw : Json.wf (.obj ((k, v) :: fs))
                    = (nodupKeys ((k, v) :: fs) && wfFields ((k, v) :: fs)) := rfl
                rw [hrw] at hwf
                simpa using hwf
              have hlen : (dumpsChars (.obj ((k, v) :: fs))).length
                  = (dumpStr k).length + (dumpsChars v).length
                    + (dumpFieldsChars fs).length + 4 := by
                show ('\x7b' :: ((dumpStr k ++ ':' :: ' ' :: dumpsChars v) ++ dumpFieldsChars fs)
                    ++ ['\x7d']).length = _
                simp [List.length_append]
                omega
              rw [show dumpsChars (Json.obj ((k, v) :: fs)) ++ rest
                    = '\x7b' :: ((dumpStr k ++ ':' :: ' ' :: dumpsChars v)
                      ++ (dumpFieldsChars fs ++ ('\x7d' :: rest))) from by
                show ('\x7b' :: ((dumpStr k ++ ':' :: ' ' :: dumpsChars v) ++ dumpFieldsChars fs)
                    ++ ['\x7d']) ++ rest = _
                simp [List.append_assoc]]
              rw [parseJson_cons_eval f '\x7b' _ (by decide)]
              simp only [if_true]
              rw [show skipWs ((dumpStr k ++ ':' :: ' ' :: dumpsChars v)
                      ++ (dumpFieldsChars fs ++ ('\x7d' :: rest)))
                    = (dumpStr k ++ ':' :: ' ' :: dumpsChars v)
                      ++ (dumpFieldsChars fs ++ ('\x7d' :: rest)) from by
                simp only [dumpStr, List.cons_append, List.append_assoc]
                exact skipWs_quote _]
              rw [show (dumpStr k ++ ':' :: ' ' :: dumpsChars v)
                      ++ (dumpFieldsChars fs ++ ('\x7d' :: rest))
                    = '"' :: ((escList k.data ++ ['"'] ++ (':' :: ' ' :: dumpsChars v))
                      ++ (dumpFieldsChars fs ++ ('\x7d' :: rest))) from by
                simp [dumpStr, List.cons_append, List.append_assoc]]
              split
              · next r heq2 =>
                  exfalso
                  rw [List.cons.injEq] at heq2
                  exact absurd heq2.1 (by decide)
              · next =>
                  rw [show '"' :: ((escList k.data ++ ['"'] ++ (':' :: ' ' :: dumpsChars v))
                        ++ (dumpFieldsChars fs ++ ('\x7d' :: rest)))
                      = (dumpStr k ++ ':' :: ' ' :: dumpsChars v)
                        ++ (dumpFieldsChars fs ++ ('\x7d' :: rest)) from by
                    simp [dumpStr, List.cons_append, List.append_assoc]]
                  rw [parseFieldsAux_dumps (parseJson f) (parseJson_ws f) fs k v (f + 1) rest
                    ?_ ?_ hrest]
                  · show some (Json.obj (dedupFields ((k, v) :: fs)), rest)
                        = some (Json.obj ((k, v) :: fs), rest)
                    rw [dedupFields_of_nodup _ hwf2.1]
                  · intro g hg r hr
                    refine ihN g.2 ?_ ?_ f ?_ r hr
                    · have hmem := List.sizeOf_lt_of_mem hg
                      have hv2 : sizeOf g.2 < sizeOf g := by
                        obtain ⟨k2, v2⟩ := g
                        simp
                      have hobj : sizeOf (Json.obj ((k, v) :: fs))
                          = 1 + sizeOf ((k, v) :: fs) := by simp
                      omega
                    · exact wfFields_mem ((k, v) :: fs) hwf2.2 g hg
                    · rw [hlen] at hfuel
                      rcases List.mem_cons.1 hg with h | h
                      · subst h
                        show (dumpsChars v).length < f
                        omega
                      · have := dumpFields_mem_le fs g h
                        omega
                  · rw [hlen] at hfuel
                    have h1 := dumpFields_count_le fs
                    omega

theorem jsonLoads_jsonDumps (v : Json) (h : Json.wf v = true) :
    jsonLoads (jsonDumps v) = some v := by
  have hmain := parseJson_dumps (sizeOf v) v le_rfl h ((dumpsChars v).length + 1)
    (by omega) [] rfl
  rw [List.append_nil] at hmain
  unfold jsonLoads jsonDumps
  rw [show (String.mk (dumpsChars v)).length = (dumpsChars v).length from rfl,
    show (String.mk (dumpsChars v)).data = dumpsChars v from rfl]
  rw [hmain]
  rfl

/-- C9: for every rent-search result consisting of JSON-safe values
(well-formed per `Json.wf`), `find_listings` returns a value equal to
that result: the serialize-then-deserialize round-trip it applies
(`json.loads(json.dumps(data))`) is the identity on such data, and the
returned structure is by construction JSON-serializable. -/
theorem C9_find_listings_roundtrip_identity
    (body : String) (api : ApiRequest → String) (rids : Nat → Nat) (data : List Json)
    (h1 : (search_rent body api rids).2 = .ok data)
    (h2 : Json.wf (.arr data) = true) :
    (find_listings body api rids).2 = .ok (.arr data) := by
  simp only [find_listings, h1, Bind.bind, Except.bind, pyLoads,
    jsonLoads_jsonDumps _ h2, toExcept]

set_option maxRecDepth 400000 in
/-- Witness for C9: a concrete rent search whose one listing survives the
dumps/loads round-trip unchanged. -/
theorem C9_witness :
    (search_rent "\"queryState\":\x7b\"x\":1\x7d, \"filter"
        (fun _ => "\x7b\"categoryTotals\": \x7b\"cat1\": \x7b\"totalResultCount\": 1\x7d\x7d, \"cat1\": \x7b\"searchResults\": \x7b\"mapResults\": [\x7b\"a\": 1\x7d]\x7d\x7d\x7d")
        (fun _ => 5)).2 = .ok [.obj [("a", .num 1)]]
    ∧ Json.wf (.arr [.obj [("a", .num 1)]]) = true
    ∧ (find_listings "\"queryState\":\x7b\"x\":1\x7d, \"filter"
        (fun _ => "\x7b\"categoryTotals\": \x7b\"cat1\": \x7b\"totalResultCount\": 1\x7d\x7d, \"cat1\": \x7b\"searchResults\": \x7b\"mapResults\": [\x7b\"a\": 1\x7d]\x7d\x7d\x7d")
        (fun _ => 5)).2 = .ok (.arr [.obj [("a", .num 1)]]) :=
  ⟨by decide, by decide,
   C9_find_listings_roundtrip_identity _ _ _ [.obj [("a", .num 1)]]
     (by decide) (by decide)⟩
